import Mathlib

/-!
Verification of the SmartBoard orchestration layer.

This file is a shallow embedding of the core of the repository:

* the request scheduling queue of services/geminiService.ts
  (processQueue / addToQueue, lines 343-366 of the cited revision);
* the command extraction pipeline (cleanJsonString and the two JSON parse
  attempts of sendMessageToGemini);
* the two-pass graph synthesis (node pass building the tempIdMap, then the
  edge pass resolving connect commands);
* the board mutation handler handleToolCall of the application component
  (mind-map expansion, coordinate defaulting);
* the narration pipeline of services/tts.ts (speakText, stopAllSpeech,
  speakWithFallback).

Machine integers are modelled as Nat / Int / Rat; JavaScript floating point
positions are idealised as real numbers; asynchronous execution is modelled
as an explicit labelled transition system whose events carry the times at
which the single-threaded event loop processes them.
-/

set_option maxHeartbeats 1000000
set_option maxRecDepth 100000

/-! ## RequestScheduler

Embedding of the queue of services/geminiService.ts (revision at lines
338-366): module state is a FIFO `requestQueue` and a boolean `isProcessing`;
`processQueue` shifts one item, awaits it, resolves or rejects, and in the
`finally` schedules `setTimeout(() => { isProcessing = false; processQueue() }, 10)`.
`addToQueue` pushes and calls `processQueue()` when `isProcessing` is false.

The scheduler state below mirrors (queue, isProcessing-with-its-mode);
`isProcessing = true` corresponds to phases `running` and `cooling`,
`isProcessing = false` to `idle`.  Tasks are identified by submission index.
The fields `now` and `log` are ghost instrumentation recording event times
and the start/finish record of completed tasks; they influence nothing. -/

/-- Result of one queued task as seen by `processQueue`: the wrapped task
either resolves or rejects; a rejection may carry a rate-limit marker
(HTTP 429 / quota text).  The scheduler code inspects neither. -/
inductive Outcome where
  | ok
  | fail (rateLimited : Bool)
deriving DecidableEq, Repr

/-- The fixed inter-task quiescence interval: `setTimeout(..., 10)`. -/
def delayMs : Nat := 10

/-- Mode of the scheduler: idle (isProcessing = false), a task awaited
(`running`), or inside the post-task `setTimeout` cooldown (`cooling`,
with the earliest time the timer may fire). -/
inductive Phase where
  | idle
  | running (idx : Nat) (startedAt : Nat)
  | cooling (fireAt : Nat)
deriving DecidableEq, Repr

/-- Ghost record of one completed task. -/
structure Entry where
  idx : Nat
  startT : Nat
  finishT : Nat
  out : Outcome
deriving DecidableEq, Repr

/-- Scheduler state.  `queue` and `phase` mirror the module variables of the
source; `nextIdx` numbers submissions; `now` and `log` are ghost. -/
structure Sched where
  queue : List Nat
  phase : Phase
  nextIdx : Nat
  now : Nat
  log : List Entry
deriving DecidableEq, Repr

/-- Events processed by the single-threaded event loop, each carrying the
time at which the loop handles it:
`submit` is a call to `addToQueue`; `finish` is the awaited task settling
(resolve or reject); `fire` is the 10ms `setTimeout` callback running. -/
inductive Ev where
  | submit (t : Nat)
  | finish (t : Nat) (out : Outcome)
  | fire (t : Nat)
deriving DecidableEq, Repr

def schedInit : Sched := { queue := [], phase := .idle, nextIdx := 0, now := 0, log := [] }

/-- One event-loop step.  `none` means the event cannot occur in this state
(time running backwards, a timer firing early or without being scheduled,
a task finishing while none runs).

* `submit`: push the task; when `isProcessing` is false `processQueue`
  immediately shifts the head and starts awaiting it.
* `finish`: resolve/reject, then `finally` schedules the timer for
  `t + delayMs`; `isProcessing` stays true throughout.
* `fire`: the timer callback sets `isProcessing = false` and re-enters
  `processQueue`, which either goes idle (empty queue) or shifts and starts
  the next task at this very time. -/
def step (s : Sched) : Ev → Option Sched
  | .submit t =>
    if t < s.now then none else
    match s.phase with
    | .idle =>
      match s.queue ++ [s.nextIdx] with
      | [] => none
      | h :: rest =>
        some { s with queue := rest, phase := .running h t, nextIdx := s.nextIdx + 1, now := t }
    | _ => some { s with queue := s.queue ++ [s.nextIdx], nextIdx := s.nextIdx + 1, now := t }
  | .finish t out =>
    if t < s.now then none else
    match s.phase with
    | .running i st =>
      some { s with phase := .cooling (t + delayMs), now := t, log := s.log ++ [⟨i, st, t, out⟩] }
    | _ => none
  | .fire t =>
    if t < s.now then none else
    match s.phase with
    | .cooling f =>
      if t < f then none else
      match s.queue with
      | [] => some { s with phase := .idle, now := t }
      | h :: rest => some { s with queue := rest, phase := .running h t, now := t }
    | _ => none

/-- Run a sequence of events. -/
def run (s : Sched) : List Ev → Option Sched
  | [] => some s
  | e :: es =>
    match step s e with
    | none => none
    | some s' => run s' es

/-- Timing chain: starting from lower bound `lb`, every logged task starts
no earlier than allowed, finishes no earlier than it starts, and releases
the slot only `delayMs` after finishing. -/
def Chain : Nat → List Entry → Prop
  | _, [] => True
  | lb, e :: rest => lb ≤ e.startT ∧ e.startT ≤ e.finishT ∧ Chain (e.finishT + delayMs) rest

/-- Earliest time at which the task after the logged ones may start. -/
def nextFree : Nat → List Entry → Nat
  | lb, [] => lb
  | _, e :: rest => nextFree (e.finishT + delayMs) rest

/-- Reachability invariant of the scheduler: completed tasks are exactly
0,1,2,... in order, their times form a chain with the quiescence interval,
the pending queue holds exactly the not-yet-started indices in submission
order, and the phase data bounds the next admissible start time. -/
def SchedInv (s : Sched) : Prop :=
  s.log.map Entry.idx = List.range s.log.length ∧
  Chain 0 s.log ∧
  match s.phase with
  | .idle => s.queue = [] ∧ s.nextIdx = s.log.length ∧ nextFree 0 s.log ≤ s.now
  | .running i st =>
      i = s.log.length ∧ nextFree 0 s.log ≤ st ∧ st ≤ s.now ∧
      s.queue = List.range' (i + 1) (s.nextIdx - (i + 1)) ∧ i + 1 ≤ s.nextIdx
  | .cooling f =>
      f = nextFree 0 s.log ∧
      s.queue = List.range' s.log.length (s.nextIdx - s.log.length) ∧
      s.log.length ≤ s.nextIdx

/-! ## String helpers shared by the embeddings

JavaScript string primitives used by the source (includes, toLowerCase,
substring, indexOf/lastIndexOf, trim, replace-all-occurrences) modelled on
`List Char`. -/

/-- Does `p` occur at the very beginning of `l`? -/
def leadsWith : List Char → List Char → Bool
  | [], _ => true
  | _ :: _, [] => false
  | p :: ps, c :: cs => p == c && leadsWith ps cs

/-- JavaScript `hay.includes(needle)`. -/
def containsSub (needle : List Char) : List Char → Bool
  | [] => leadsWith needle []
  | c :: cs => leadsWith needle (c :: cs) || containsSub needle cs

/-- JavaScript `toLowerCase`, restricted to the ASCII letters that occur in
the marker strings the source tests for. -/
def toLowerList (l : List Char) : List Char := l.map Char.toLower

/-- JavaScript whitespace as used by `trim` (space, tab, newline, carriage
return, form feed). -/
def isJsWs (c : Char) : Bool :=
  c == ' ' || c == '\t' || c == '\n' || c == '\r' || c == '\x0c'

/-- JavaScript `trim`. -/
def trimList (l : List Char) : List Char :=
  ((l.dropWhile isJsWs).reverse.dropWhile isJsWs).reverse

/-- Fuel-driven worker for `removePat`; the fuel is an upper bound on the
input length, so it never runs out on the lists `removePat` feeds it. -/
def removePatFuel (pat : List Char) : Nat → List Char → List Char
  | 0, l => l
  | _, [] => []
  | fuel + 1, c :: rest =>
    if leadsWith pat (c :: rest) && !pat.isEmpty then
      removePatFuel pat fuel (rest.drop (pat.length - 1))
    else
      c :: removePatFuel pat fuel rest

/-- Remove every occurrence of the pattern `pat`, scanning left to right
without overlap: JavaScript `str.replace(/pat/g, '')`. -/
def removePat (pat : List Char) (l : List Char) : List Char :=
  removePatFuel pat l.length l

/-- The error reply branch of sendMessageToGemini (geminiService.ts lines
532-537): a failure whose message contains "429" or (lower-cased) "quota"
yields the dedicated quota message, anything else the generic message. -/
def errorReply (msg : String) : String :=
  if containsSub "429".data msg.data || containsSub "quota".data (toLowerList msg.data) then
    "I've run out of thinking power (Quota Exceeded). Please check your API Key settings."
  else
    "Sorry, an error occurred. (" ++ msg ++ ")"

/-! ## NarrationQueue (services/tts.ts, revision at lines 1-134)

Module state: `currentAudioSource` (a Web Audio buffer source playing the
primary provider's decoded audio) and `currentFallbackAudio` (an
HTMLAudioElement playing the fallback provider's stream).  Both are modelled
as optional abstract identities drawn from the ghost counter `nextSrc`.
`speakText` is one asynchronous call; the outcome of its external calls
(`getSpeechAudioData`, `decodeAudioData`) is an explicit parameter.  The
returned event list records, in program order, which sources were stopped
and which started playing. -/

/-- Observable audio actions of the narration pipeline. -/
inductive AudioEv where
  | stopPrimary (src : Nat)
  | stopFallback (src : Nat)
  | startPrimary (src : Nat)
  | startFallback (src : Nat) (text : String)
deriving DecidableEq, Repr

/-- Narration module state. -/
structure TtsState where
  currentAudioSource : Option Nat
  currentFallbackAudio : Option Nat
  nextSrc : Nat
deriving DecidableEq, Repr

/-- stopAllSpeech (tts.ts lines 17-33): stop the primary source if playing,
pause and detach the fallback element if playing, null both. -/
def stopAllSpeech (st : TtsState) : TtsState × List AudioEv :=
  let evs1 :=
    match st.currentAudioSource with
    | some a => [AudioEv.stopPrimary a]
    | none => []
  let evs2 :=
    match st.currentFallbackAudio with
    | some a => [AudioEv.stopFallback a]
    | none => []
  ({ st with currentAudioSource := none, currentFallbackAudio := none }, evs1 ++ evs2)

/-- Environment outcome of one `getSpeechAudioData` call together with the
subsequent decode: the promise rejects, resolves with a falsy payload, or
resolves with data whose decode succeeds or throws. -/
inductive TtsNet where
  | apiFail
  | noData
  | audio (decodeOk : Bool)
deriving DecidableEq, Repr

/-- The text actually submitted to the fallback service
(tts.ts lines 76-79): truncated to its first 200 characters when longer. -/
def fallbackText (text : String) : String :=
  if 200 < text.length then String.mk (text.data.take 200) else text

/-- speakWithFallback (tts.ts lines 71-105): stop current audio, truncate
the text, create a fallback audio element and start it. -/
def speakWithFallback (st : TtsState) (text : String) : TtsState × List AudioEv :=
  let p := stopAllSpeech st
  ({ p.1 with currentFallbackAudio := some p.1.nextSrc, nextSrc := p.1.nextSrc + 1 },
   p.2 ++ [AudioEv.startFallback p.1.nextSrc (fallbackText text)])

/-- playAudioData (tts.ts lines 36-67): stop current audio, decode the PCM
payload and start a buffer source; a decode failure throws back to
speakText (third component false). -/
def playAudioData (st : TtsState) (decodeOk : Bool) : TtsState × List AudioEv × Bool :=
  let p := stopAllSpeech st
  if decodeOk then
    ({ p.1 with currentAudioSource := some p.1.nextSrc, nextSrc := p.1.nextSrc + 1 },
     p.2 ++ [AudioEv.startPrimary p.1.nextSrc], true)
  else
    (p.1, p.2, false)

/-- The emoji / decorative glyph ranges of the emojiRegex in tts.ts. -/
def isEmojiChar (c : Char) : Bool :=
  let n := c.toNat
  (decide (0x1F600 ≤ n) && decide (n ≤ 0x1F64F)) ||
  (decide (0x1F300 ≤ n) && decide (n ≤ 0x1F5FF)) ||
  (decide (0x1F680 ≤ n) && decide (n ≤ 0x1F6FF)) ||
  (decide (0x1F1E0 ≤ n) && decide (n ≤ 0x1F1FF)) ||
  (decide (0x2600 ≤ n) && decide (n ≤ 0x26FF)) ||
  (decide (0x2700 ≤ n) && decide (n ≤ 0x27BF)) ||
  (decide (0x1F900 ≤ n) && decide (n ≤ 0x1F9FF)) ||
  (decide (0x1F018 ≤ n) && decide (n ≤ 0x1F270)) ||
  n == 0x238C || n == 0x2B06 || n == 0x2197

/-- The cleanup `text.replace(emojiRegex, '').trim()` (tts.ts line 115). -/
def cleanNarration (text : String) : String :=
  String.mk (trimList (text.data.filter (fun c => !isEmojiChar c)))

/-- speakText (tts.ts lines 109-134): stop everything, return if muted,
strip decorative glyphs, return if nothing remains, then try the primary
provider and fall back on any failure. -/
def speakText (st : TtsState) (text : String) (isMuted : Bool) (net : TtsNet) :
    TtsState × List AudioEv :=
  let p1 := stopAllSpeech st
  if isMuted then p1
  else
    let cleanText := cleanNarration text
    if cleanText = "" then p1
    else
      match net with
      | .audio ok =>
        let p2 := playAudioData p1.1 ok
        if p2.2.2 then (p2.1, p1.2 ++ p2.2.1)
        else
          let p3 := speakWithFallback p2.1 cleanText
          (p3.1, p1.2 ++ p2.2.1 ++ p3.2)
      | .noData =>
        let p3 := speakWithFallback p1.1 cleanText
        (p3.1, p1.2 ++ p3.2)
      | .apiFail =>
        let p3 := speakWithFallback p1.1 cleanText
        (p3.1, p1.2 ++ p3.2)

/-! ## CommandExtractor (sendMessageToGemini, geminiService.ts lines 441-468)

The raw model response is cleaned of code fences, then parsed: a strict
whole-text JSON.parse whose result is kept only when it is an array; only
when that parse THROWS, the substring from the first opening bracket to the
last closing bracket is parsed, again kept only when it is an array.
JSON.parse is embedded as a recursive-descent parser over the JSON grammar
producing `Json` values (numbers idealised as rationals); `none` models a
thrown SyntaxError. -/

/-- JSON values as produced by JSON.parse. -/
inductive Json where
  | null
  | bool (b : Bool)
  | num (q : Rat)
  | str (s : String)
  | arr (elems : List Json)
  | obj (fields : List (String × Json))
deriving Repr

/-- JSON insignificant whitespace. -/
def jsSkipWs : List Char → List Char
  | c :: cs => if c == ' ' || c == '\t' || c == '\n' || c == '\r' then jsSkipWs cs else c :: cs
  | [] => []

def isDigitCh (c : Char) : Bool := decide ('0' ≤ c) && decide (c ≤ '9')

def digitsToNat (l : List Char) : Nat :=
  l.foldl (fun n c => n * 10 + (c.toNat - '0'.toNat)) 0

def hexDigitToNat (c : Char) : Nat :=
  if isDigitCh c then c.toNat - '0'.toNat
  else if decide ('a' ≤ c) && decide (c ≤ 'f') then c.toNat - 'a'.toNat + 10
  else if decide ('A' ≤ c) && decide (c ≤ 'F') then c.toNat - 'A'.toNat + 10
  else 0

/-- Parse a JSON string body (the opening quote already consumed), handling
the standard escapes; the fuel is an upper bound on the input length. -/
def parseJsonStr (acc : List Char) : Nat → List Char → Option (String × List Char)
  | _, [] => none
  | 0, _ => none
  | fuel + 1, c :: r =>
    if c == '"' then some (String.mk acc.reverse, r)
    else if c == '\\' then
      match r with
      | [] => none
      | e :: r' =>
        if e == 'n' then parseJsonStr ('\n' :: acc) fuel r'
        else if e == 't' then parseJsonStr ('\t' :: acc) fuel r'
        else if e == 'r' then parseJsonStr ('\r' :: acc) fuel r'
        else if e == 'b' then parseJsonStr ('\x08' :: acc) fuel r'
        else if e == 'f' then parseJsonStr ('\x0c' :: acc) fuel r'
        else if e == '"' then parseJsonStr ('"' :: acc) fuel r'
        else if e == '\\' then parseJsonStr ('\\' :: acc) fuel r'
        else if e == '/' then parseJsonStr ('/' :: acc) fuel r'
        else if e == 'u' then
          match r' with
          | h1 :: h2 :: h3 :: h4 :: r'' =>
            let n := ((hexDigitToNat h1 * 16 + hexDigitToNat h2) * 16 + hexDigitToNat h3) * 16 +
              hexDigitToNat h4
            parseJsonStr (Char.ofNat n :: acc) fuel r''
          | _ => none
        else none
    else parseJsonStr (c :: acc) fuel r

/-- Parse a JSON number: optional minus, integer part without leading
zeros, optional fraction, optional exponent. -/
def parseJsonNum (l : List Char) : Option (Rat × List Char) :=
  let (neg, l1) := match l with
    | '-' :: r => (true, r)
    | _ => (false, l)
  let ipOpt : Option (Nat × List Char) := match l1 with
    | '0' :: r => some (0, r)
    | c :: _ =>
      if isDigitCh c then
        let ds := l1.takeWhile isDigitCh
        some (digitsToNat ds, l1.dropWhile isDigitCh)
      else none
    | [] => none
  match ipOpt with
  | none => none
  | some (ip, l2) =>
    let (fp, fd, l3) : Nat × Nat × List Char := match l2 with
      | '.' :: r =>
        let ds := r.takeWhile isDigitCh
        (digitsToNat ds, ds.length, r.dropWhile isDigitCh)
      | _ => (0, 0, l2)
    if l2 ≠ l3 ∧ fd = 0 then none else
    match l3 with
    | 'e' :: r | 'E' :: r =>
      let (eneg, r1) := match r with
        | '-' :: rr => (true, rr)
        | '+' :: rr => (false, rr)
        | _ => (false, r)
      let ds := r1.takeWhile isDigitCh
      if ds.isEmpty then none else
      let ev := digitsToNat ds
      let base : Rat := (ip : Rat) + (fp : Rat) / ((10 : Rat) ^ fd)
      let scaled := if eneg then base / (10 : Rat) ^ ev else base * (10 : Rat) ^ ev
      some (if neg then -scaled else scaled, r1.dropWhile isDigitCh)
    | _ =>
      let base : Rat := if fd = 0 then (ip : Rat) else (ip : Rat) + (fp : Rat) / ((10 : Rat) ^ fd)
      some (if neg then -base else base, l3)

mutual

/-- Parse one JSON value. -/
def parseJsonVal : Nat → List Char → Option (Json × List Char)
  | 0, _ => none
  | fuel + 1, l =>
    match jsSkipWs l with
    | '\x7b' :: r =>
      match jsSkipWs r with
      | '\x7d' :: r1 => some (.obj [], r1)
      | r1 => parseJsonFields fuel r1 []
    | '[' :: r =>
      match jsSkipWs r with
      | ']' :: r1 => some (.arr [], r1)
      | r1 => parseJsonElems fuel r1 []
    | '"' :: r =>
      match parseJsonStr [] r.length r with
      | some (s, r1) => some (.str s, r1)
      | none => none
    | 't' :: r =>
      if leadsWith "rue".data r then some (.bool true, r.drop 3) else none
    | 'f' :: r =>
      if leadsWith "alse".data r then some (.bool false, r.drop 4) else none
    | 'n' :: r =>
      if leadsWith "ull".data r then some (.null, r.drop 3) else none
    | l1 =>
      match parseJsonNum l1 with
      | some (q, r) => some (.num q, r)
      | none => none

/-- Parse the elements of a non-empty JSON array. -/
def parseJsonElems : Nat → List Char → List Json → Option (Json × List Char)
  | 0, _, _ => none
  | fuel + 1, l, acc =>
    match parseJsonVal fuel l with
    | none => none
    | some (v, r) =>
      match jsSkipWs r with
      | ',' :: r1 => parseJsonElems fuel r1 (acc ++ [v])
      | ']' :: r1 => some (.arr (acc ++ [v]), r1)
      | _ => none

/-- Parse the fields of a non-empty JSON object. -/
def parseJsonFields : Nat → List Char → List (String × Json) → Option (Json × List Char)
  | 0, _, _ => none
  | fuel + 1, l, acc =>
    match jsSkipWs l with
    | '"' :: r =>
      match parseJsonStr [] r.length r with
      | none => none
      | some (k, r1) =>
        match jsSkipWs r1 with
        | ':' :: r2 =>
          match parseJsonVal fuel r2 with
          | none => none
          | some (v, r3) =>
            match jsSkipWs r3 with
            | ',' :: r4 => parseJsonFields fuel r4 (acc ++ [(k, v)])
            | '\x7d' :: r4 => some (.obj (acc ++ [(k, v)]), r4)
            | _ => none
        | _ => none
    | _ => none

end

/-- JSON.parse: parse one value and require only whitespace to remain;
`none` models a thrown SyntaxError. -/
def jsonParse (s : String) : Option Json :=
  match parseJsonVal (s.length + 1) s.data with
  | some (v, rest) => if jsSkipWs rest = [] then some v else none
  | none => none

/-- cleanJsonString (geminiService.ts line 368):
remove every occurrence of the json code-fence opener, then every remaining
code fence, then trim. -/
def cleanJsonString (s : String) : String :=
  String.mk (trimList (removePat "```".data (removePat "```json".data s.data)))

/-- JavaScript `indexOf` for a single character. -/
def firstIdxOf (c : Char) : List Char → Option Nat
  | [] => none
  | x :: r => if x == c then some 0 else (firstIdxOf c r).map (· + 1)

/-- JavaScript `lastIndexOf` for a single character. -/
def lastIdxOf (c : Char) (l : List Char) : Option Nat :=
  match firstIdxOf c l.reverse with
  | some i => some (l.length - 1 - i)
  | none => none

/-- JavaScript `substring`: clamps and swaps its bounds. -/
def jsSubstring (l : List Char) (a b : Nat) : List Char :=
  (l.drop (min a b)).take (max a b - min a b)

/-- The command extraction of sendMessageToGemini (lines 448-468): clean the
text; strict JSON.parse keeping the result only when it is an array; only
when the strict parse throws, slice from the first opening to the last
closing bracket and parse that, again keeping only arrays; `commands` stays
empty otherwise.  The batch is processed (matched) only when at least one
command was obtained. -/
def extractCommands (rawText : String) : List Json × Bool :=
  let cleaned := cleanJsonString rawText
  let commands : List Json :=
    match jsonParse cleaned with
    | some (Json.arr l) => l
    | some _ => []
    | none =>
      match firstIdxOf '[' cleaned.data, lastIdxOf ']' cleaned.data with
      | some i, some j =>
        match jsonParse (String.mk (jsSubstring cleaned.data i (j + 1))) with
        | some (Json.arr l) => l
        | _ => []
      | _, _ => []
  (commands, decide (0 < commands.length))

/-- Modelled from the claim's words (C5): the strict whole-text parse is
"accepted only if the result is an array; OTHERWISE" the bracket substring
is parsed — i.e. the fallback is attempted whenever the strict attempt is
not accepted, including when the strict parse succeeds with a non-array.
This is the reading under comparison with `extractCommands`, which falls
back only when the strict parse throws. -/
def claimExtractCommands (rawText : String) : List Json × Bool :=
  let cleaned := cleanJsonString rawText
  let commands : List Json :=
    match jsonParse cleaned with
    | some (Json.arr l) => l
    | _ =>
      match firstIdxOf '[' cleaned.data, lastIdxOf ']' cleaned.data with
      | some i, some j =>
        match jsonParse (String.mk (jsSubstring cleaned.data i (j + 1))) with
        | some (Json.arr l) => l
        | _ => []
      | _, _ => []
  (commands, decide (0 < commands.length))

/-- The unmatched-reply fallback (lines 524-529): the raw text verbatim, or
a localized placeholder when it is blank. -/
def fallbackReply (rawText language : String) : String :=
  if String.mk (trimList rawText.data) = "" then
    if leadsWith "ar".data language.data then
      "لم أفهم الطلب. هل يمكنك المحاولة مرة أخرى بصيغة مختلفة؟"
    else
      "I didn't understand that. Could you try rephrasing?"
  else rawText

/-! ## GraphSynthesizer (sendMessageToGemini, geminiService.ts lines 471-503)

The parsed command objects are split into edge commands (`action ===
'connect'`) and node commands (any other truthy `action`); pass 1 walks the
node commands in order, generating for each a fresh finalId from the
timestamp and random-suffix sources, recording `tempIdMap[node.id] =
finalId` when the command carries a truthy id, and invoking
`onToolCall(node.action, { ...node, id: finalId })`; pass 2 walks the edge
commands resolving `from`/`to` through the map and invoking the connect
call only when both resolve to truthy strings.  The invocation trace is the
list of (name, args) pairs in call order. -/

/-- Property lookup on a parsed object (absent on non-objects); later
duplicate keys win, as with JavaScript objects built by JSON.parse. -/
def jgetField (j : Json) (k : String) : Option Json :=
  match j with
  | .obj fs => fs.foldl (fun acc p => if p.1 = k then some p.2 else acc) none
  | _ => none

/-- JavaScript truthiness of a possibly-absent property value. -/
def jTruthy : Option Json → Bool
  | none => false
  | some .null => false
  | some (.bool b) => b
  | some (.num q) => !(q == 0)
  | some (.str s) => !(s == "")
  | some (.arr _) => true
  | some (.obj _) => true

/-- JavaScript string coercion of a value used as a property key or in a
template literal (exact for strings, the schema's case; numbers are
rendered via the rational's representation). -/
def jsDisplay : Option Json → String
  | some (.str s) => s
  | some (.num q) => toString q
  | some (.bool true) => "true"
  | some (.bool false) => "false"
  | some .null => "null"
  | some (.arr _) => ""
  | some (.obj _) => "[object Object]"
  | none => "undefined"

/-- JavaScript truthiness of a string-or-undefined value
(`if (sourceId && targetId)`). -/
def strTruthy : Option String → Bool
  | some s => !(s == "")
  | none => false

/-- Object spread with one overriding field, `{ ...j, k: v }`: an existing
key keeps its position with the new value, a fresh key is appended. -/
def jSetField (j : Json) (k : String) (v : Json) : Json :=
  match j with
  | .obj fs =>
    if fs.any (fun p => p.1 == k) then
      .obj (fs.map (fun p => if p.1 == k then (p.1, v) else p))
    else
      .obj (fs ++ [(k, v)])
  | _ => .obj [(k, v)]

/-- One generated finalId:
`ai-${Date.now()}-${Math.random().toString(36).substring(2, 7)}`,
with `ts k` the timestamp and `rs k` the random suffix observed by the
k-th generation. -/
def mkFinalId (ts : Nat → Nat) (rs : Nat → String) (k : Nat) : String :=
  "ai-" ++ Nat.repr (ts k) ++ "-" ++ rs k

/-- The raw `action` value of a command (the first onToolCall argument). -/
def actionOf (cmd : Json) : Json := (jgetField cmd "action").getD .null

/-- The forEach classification: edge commands are exactly those whose
action is the string "connect"; node commands those with any other truthy
action; everything else is dropped. -/
def splitCmds : List Json → List Json × List Json
  | [] => ([], [])
  | cmd :: rest =>
    let s := splitCmds rest
    match jgetField cmd "action" with
    | some (Json.str a) =>
      if a = "connect" then (s.1, cmd :: s.2)
      else if a ≠ "" then (cmd :: s.1, s.2) else s
    | v => if jTruthy v then (cmd :: s.1, s.2) else s

/-- Pointwise map update (JavaScript property assignment). -/
def updateMap (m : String → Option String) (k v : String) : String → Option String :=
  fun q => if q = k then some v else m q

/-- Pass 1 over the node commands: threads the tempIdMap, the global
generation counter and the accumulated call trace. -/
def pass1 (ts : Nat → Nat) (rs : Nat → String) :
    List Json → (String → Option String) → Nat → List (Json × Json) →
      (String → Option String) × Nat × List (Json × Json)
  | [], m, k, acc => (m, k, acc)
  | node :: rest, m, k, acc =>
    let finalId := mkFinalId ts rs k
    let m' :=
      if jTruthy (jgetField node "id") then
        updateMap m (jsDisplay (jgetField node "id")) finalId
      else m
    pass1 ts rs rest m' (k + 1)
      (acc ++ [(actionOf node, jSetField node "id" (.str finalId))])

/-- The key under which `tempIdMap[cmd.from]` looks a reference up
(property access coerces the value, an absent property reads as
"undefined"). -/
def refKey (cmd : Json) (k : String) : String := jsDisplay (jgetField cmd k)

/-- Pass 2 over the edge commands: resolve both sides through the map and
emit the connect call only when both are truthy; otherwise drop the edge
and continue. -/
def pass2 (m : String → Option String) : List Json → List (Json × Json) → List (Json × Json)
  | [], acc => acc
  | cmd :: rest, acc =>
    let sourceId := m (refKey cmd "from")
    let targetId := m (refKey cmd "to")
    if strTruthy sourceId && strTruthy targetId then
      pass2 m rest (acc ++ [(Json.str "connect",
        jSetField (jSetField cmd "from" (.str (sourceId.getD "")))
          "to" (.str (targetId.getD "")))])
    else pass2 m rest acc

/-- The full two-pass synthesis of one batch starting at global generation
counter `c0`: returns (call trace, tempIdMap, final counter). -/
def synthesize (commands : List Json) (ts : Nat → Nat) (rs : Nat → String) (c0 : Nat) :
    List (Json × Json) × (String → Option String) × Nat :=
  let s := splitCmds commands
  let p1 := pass1 ts rs s.1 (fun _ => none) c0 []
  (pass2 p1.1 s.2 p1.2.2, p1.1, p1.2.1)

/-- Declarative node-command filter (for the trace characterisation). -/
def isNodeCmd (cmd : Json) : Bool :=
  match jgetField cmd "action" with
  | some (Json.str a) => !(a == "connect") && !(a == "")
  | v => jTruthy v

/-- Declarative edge-command filter. -/
def isEdgeCmd (cmd : Json) : Bool :=
  match jgetField cmd "action" with
  | some (Json.str a) => a == "connect"
  | _ => false

/-- The identity map produced by pass 1, computed without the trace. -/
def mapPass (ts : Nat → Nat) (rs : Nat → String) :
    List Json → (String → Option String) → Nat → (String → Option String)
  | [], m, _ => m
  | node :: rest, m, k =>
    let m' :=
      if jTruthy (jgetField node "id") then
        updateMap m (jsDisplay (jgetField node "id")) (mkFinalId ts rs k)
      else m
    mapPass ts rs rest m' (k + 1)

/-- The element-creation calls of pass 1, one per node command in original
order, the k-th carrying the k-th generated finalId. -/
def createsFrom (ts : Nat → Nat) (rs : Nat → String) : Nat → List Json → List (Json × Json)
  | _, [] => []
  | k, node :: rest =>
    (actionOf node, jSetField node "id" (.str (mkFinalId ts rs k))) :: createsFrom ts rs (k + 1) rest

/-- The edge-creation calls of pass 2: each resolvable connect command in
original order, with `from`/`to` replaced by the map's finalIds;
unresolvable connects contribute nothing. -/
def edgesSpec (m : String → Option String) (edges : List Json) : List (Json × Json) :=
  edges.filterMap (fun cmd =>
    let sourceId := m (refKey cmd "from")
    let targetId := m (refKey cmd "to")
    if strTruthy sourceId && strTruthy targetId then
      some (Json.str "connect",
        jSetField (jSetField cmd "from" (.str (sourceId.getD "")))
          "to" (.str (targetId.getD "")))
    else none)

/-- The finalIds assigned by pass 1 of one batch starting at counter `k`. -/
def idsFrom (ts : Nat → Nat) (rs : Nat → String) : Nat → Nat → List String
  | _, 0 => []
  | k, n + 1 => mkFinalId ts rs k :: idsFrom ts rs (k + 1) n

/-- All finalIds assigned across a sequence of batches processed with the
shared generation sources, threading the global counter. -/
def idsOfBatches (ts : Nat → Nat) (rs : Nat → String) : List (List Json) → Nat → List String
  | [], _ => []
  | batch :: rest, c0 =>
    let n := ((splitCmds batch).1).length
    idsFrom ts rs c0 n ++ idsOfBatches ts rs rest (c0 + n)

/-- The tool names the board handler recognises (handleToolCall's switch in
the application component, including the typeMap of its default case). -/
def knownToolNames : List String :=
  ["connect", "addComparison", "addMindMap", "addNote", "addText", "addImage",
   "addList", "addWordArt", "addShape", "addCode"]

/-- Total number of node commands across a sequence of batches. -/
def totalNodes : List (List Json) → Nat
  | [] => 0
  | batch :: rest => ((splitCmds batch).1).length + totalNodes rest

/-! ## Board mutation handler (handleToolCall of the application component)

The React component receives each onToolCall invocation and mutates the
reactflow node/edge collections (setNodes / setEdges appends; reactflow's
addEdge duplicate check never fires on the randomised edge ids and is
modelled as an append).  Positions are idealised as real numbers
(JavaScript doubles); `r1`, `r2` are the two Math.random() samples behind
`defaultPos`; `er` the Math.random() sample inside a connect edge id;
`imgUrl` abstracts generateImageWithPollinations together with its random
seed.  Node data payloads are the spread objects of the source.
Coordinates are modelled as numeric-or-absent, the shape the tool schema
prescribes. -/

structure FlowNode where
  id : String
  ntype : String
  px : Real
  py : Real
  ndata : Json

structure FlowEdge where
  id : String
  source : String
  target : String
  etype : String
  animated : Bool
  edgeLabel : Option Json
  strokeWidth : Option Nat

structure Board where
  nodes : List FlowNode
  edges : List FlowEdge

/-- The coordinate choice `args.x || defaultPos.x`: an absent coordinate and the falsy 0 select
the jittered default; a nonzero coordinate is honoured. -/
noncomputable def posOr (v : Option Json) (d : Real) : Real :=
  match v with
  | some (Json.num q) => if q = 0 then d else (q : Real)
  | _ => d

/-- defaultPos: `800 + Math.random() * 200 - 100`. -/
noncomputable def defaultPosX (r1 : Real) : Real := 800 + r1 * 200 - 100

/-- defaultPos: `450 + Math.random() * 100 - 50`. -/
noncomputable def defaultPosY (r2 : Real) : Real := 450 + r2 * 100 - 50

/-- The default-case narration text: content, overridden by text,
overridden by title, each only when truthy. -/
def spokenDefault (args : Json) : Option Json :=
  let t1 : Option Json :=
    if jTruthy (jgetField args "content") then jgetField args "content" else none
  let t2 : Option Json := if jTruthy (jgetField args "text") then jgetField args "text" else t1
  if jTruthy (jgetField args "title") then jgetField args "title" else t2

/-- The reactflow node type of each single-element tool, combining the
dedicated switch cases with the typeMap of the default case. -/
def nodeTypeOf (s : String) : String :=
  if s = "addComparison" then "comparison"
  else if s = "addNote" then "note"
  else if s = "addText" then "text"
  else if s = "addImage" then "image"
  else if s = "addList" then "list"
  else if s = "addWordArt" then "wordArt"
  else if s = "addShape" then "shape"
  else "code"

/-- The data payload of each single-element tool: the spread args tagged
with the type, plus the generated image URL for addImage. -/
def singleNodeData (imgUrl : String → String) (s : String) (args : Json) : Json :=
  if s = "addImage" then
    jSetField (jSetField args "type" (.str "image")) "url"
      (.str (imgUrl (jsDisplay (jgetField args "description"))))
  else jSetField args "type" (.str (nodeTypeOf s))

/-- Satellite notes and edges of a mind map (the forEach over
mindMapNodes), `k` being the running index. -/
noncomputable def mkSatellites (rootId : String) (centerX centerY radius angleStep : Real) :
    Nat → List Json → List FlowNode × List FlowEdge
  | _, [] => ([], [])
  | k, node :: rest =>
    let angle : Real := k * angleStep - Real.pi / 2
    let nodeX := centerX + radius * Real.cos angle - 112
    let nodeY := centerY + radius * Real.sin angle - 70
    let nodeId := rootId ++ "-" ++ jsDisplay (jgetField node "id")
    let p := mkSatellites rootId centerX centerY radius angleStep (k + 1) rest
    ({ id := nodeId, ntype := "note", px := nodeX, py := nodeY,
       ndata := Json.obj [("id", .str nodeId), ("type", .str "note"),
         ("content", (jgetField node "label").getD .null), ("color", .str "#c5cae9")] } :: p.1,
     { id := "edge-" ++ rootId ++ "-" ++ nodeId, source := rootId, target := nodeId,
       etype := "smoothstep", animated := true, edgeLabel := none,
       strokeWidth := none } :: p.2)

/-- handleToolCall: the switch over tool names.  A call without a truthy id
(other than connect) is rejected; connect appends an edge; the mind map
expands into a center note, satellites on a circle and one edge per
satellite; every other recognised tool appends one positioned node; an
unrecognised name warns and changes nothing.  The second component is the
text handed to narration (spoken only when truthy). -/
noncomputable def handleToolCall (imgUrl : String → String) (name : Json) (args : Json)
    (r1 r2 : Real) (er : String) (b : Board) : Board × Option Json :=
  let idv := jgetField args "id"
  let isConnect : Bool := match name with | .str s => s == "connect" | _ => false
  if !jTruthy idv && !isConnect then (b, none)
  else
    let defX := defaultPosX r1
    let defY := defaultPosY r2
    let nid := jsDisplay idv
    match name with
    | .str s =>
      if s = "connect" then
        ({ b with
            edges := b.edges ++
              [{ id := "edge-" ++ jsDisplay (jgetField args "from") ++ "-" ++
                   jsDisplay (jgetField args "to") ++ "-" ++ er,
                 source := jsDisplay (jgetField args "from"),
                 target := jsDisplay (jgetField args "to"),
                 etype := "smoothstep", animated := true,
                 edgeLabel := jgetField args "label", strokeWidth := some 2 }] },
         none)
      else if s = "addComparison" then
        ({ b with
            nodes := b.nodes ++
              [{ id := nid, ntype := "comparison",
                 px := posOr (jgetField args "x") defX,
                 py := posOr (jgetField args "y") defY,
                 ndata := singleNodeData imgUrl s args }] },
         if jTruthy (jgetField args "title") then jgetField args "title" else none)
      else if s = "addMindMap" then
        let title := jgetField args "title"
        let mindNodes : List Json :=
          match jgetField args "nodes" with
          | some (Json.arr l) => l
          | _ => []
        let centerX := posOr (jgetField args "x") defX
        let centerY := posOr (jgetField args "y") defY
        let center : FlowNode :=
          { id := nid, ntype := "note",
            px := centerX - 112, py := centerY - 70,
            ndata := Json.obj [("id", .str nid), ("type", .str "note"),
              ("content", title.getD .null), ("color", .str "#d1c4e9"),
              ("style", .str "bold")] }
        let sats :=
          if 0 < mindNodes.length then
            mkSatellites nid centerX centerY (max (250 : Real) (mindNodes.length * 45))
              (2 * Real.pi / mindNodes.length) 0 mindNodes
          else ([], [])
        ({ b with
            nodes := b.nodes ++ center :: sats.1,
            edges := b.edges ++ sats.2 },
         if jTruthy title then title else none)
      else if s = "addNote" then
        ({ b with
            nodes := b.nodes ++
              [{ id := nid, ntype := "note",
                 px := posOr (jgetField args "x") defX,
                 py := posOr (jgetField args "y") defY,
                 ndata := singleNodeData imgUrl s args }] },
         if jTruthy (jgetField args "content") then jgetField args "content" else none)
      else if s = "addText" then
        ({ b with
            nodes := b.nodes ++
              [{ id := nid, ntype := "text",
                 px := posOr (jgetField args "x") defX,
                 py := posOr (jgetField args "y") defY,
                 ndata := singleNodeData imgUrl s args }] },
         if jTruthy (jgetField args "text") then jgetField args "text" else none)
      else if s = "addImage" then
        ({ b with
            nodes := b.nodes ++
              [{ id := nid, ntype := "image",
                 px := posOr (jgetField args "x") defX,
                 py := posOr (jgetField args "y") defY,
                 ndata := singleNodeData imgUrl s args }] },
         none)
      else if s = "addList" ∨ s = "addWordArt" ∨ s = "addShape" ∨ s = "addCode" then
        ({ b with
            nodes := b.nodes ++
              [{ id := nid, ntype := nodeTypeOf s,
                 px := posOr (jgetField args "x") defX,
                 py := posOr (jgetField args "y") defY,
                 ndata := singleNodeData imgUrl s args }] },
         spokenDefault args)
      else (b, none)
    | _ => (b, none)

/-- The center note a mind map creates (shorthand for the literal in
handleToolCall). -/
noncomputable def mindCenterNode (args : Json) (r1 r2 : Real) : FlowNode :=
  { id := jsDisplay (jgetField args "id"), ntype := "note",
    px := posOr (jgetField args "x") (defaultPosX r1) - 112,
    py := posOr (jgetField args "y") (defaultPosY r2) - 70,
    ndata := Json.obj [("id", .str (jsDisplay (jgetField args "id"))), ("type", .str "note"),
      ("content", (jgetField args "title").getD .null), ("color", .str "#d1c4e9"),
      ("style", .str "bold")] }

/-- The satellites and edges a mind map creates for node list `mind`. -/
noncomputable def mindSats (args : Json) (r1 r2 : Real) (mind : List Json) :
    List FlowNode × List FlowEdge :=
  mkSatellites (jsDisplay (jgetField args "id"))
    (posOr (jgetField args "x") (defaultPosX r1)) (posOr (jgetField args "y") (defaultPosY r2))
    (max 250 (mind.length * 45)) (2 * Real.pi / mind.length) 0 mind

theorem chain_snoc {l : List Entry} {lb : Nat} (h : Chain lb l) {i s f : Nat} {o : Outcome}
    (hs : nextFree lb l ≤ s) (hf : s ≤ f) : Chain lb (l ++ [⟨i, s, f, o⟩]) := by
  induction l generalizing lb with
  | nil => exact ⟨hs, hf, trivial⟩
  | cons e rest ih =>
    exact ⟨h.1, h.2.1, ih h.2.2 hs⟩

theorem nextFree_snoc (lb : Nat) (l : List Entry) (e : Entry) :
    nextFree lb (l ++ [e]) = e.finishT + delayMs := by
  induction l generalizing lb with
  | nil => rfl
  | cons e' rest ih => exact ih _

theorem range'_snoc (a n : Nat) : List.range' a n ++ [a + n] = List.range' a (n + 1) := by
  induction n generalizing a with
  | zero => simp [List.range']
  | succ n ih =>
    rw [List.range'_succ, List.range'_succ, List.cons_append, ← ih (a + 1)]
    ring_nf

theorem step_inv {s s' : Sched} {e : Ev} (hI : SchedInv s) (h : step s e = some s') : SchedInv s' := by
  obtain ⟨hidx, hchain, hph⟩ := hI
  cases e with
  | submit t =>
    simp only [step] at h
    split at h
    · exact absurd h (by simp)
    · rename_i hnow
      cases hp : s.phase with
      | idle =>
        rw [hp] at h hph
        obtain ⟨hq, hn, hfree⟩ := hph
        rw [hq] at h
        simp only [List.nil_append] at h
        cases h
        refine ⟨hidx, hchain, hn, ?_, ?_, ?_, ?_⟩
        · (try dsimp only)
          omega
        · (try dsimp only)
          omega
        · (try dsimp only)
          simp
        · (try dsimp only)
          omega
      | running i st =>
        rw [hp] at h hph
        obtain ⟨hi, hfree, hst, hq, hle⟩ := hph
        cases h
        simp only [SchedInv]
        (try dsimp only)
        refine ⟨hidx, hchain, hi, hfree, by omega, ?_, by omega⟩
        rw [hq, show s.nextIdx + 1 - (i + 1) = (s.nextIdx - (i + 1)) + 1 by omega,
          ← range'_snoc]
        congr 2
        omega
      | cooling f =>
        rw [hp] at h hph
        obtain ⟨hf, hq, hle⟩ := hph
        cases h
        simp only [SchedInv]
        (try dsimp only)
        refine ⟨hidx, hchain, hf, ?_, by omega⟩
        rw [hq, show s.nextIdx + 1 - s.log.length = (s.nextIdx - s.log.length) + 1 by omega,
          ← range'_snoc]
        congr 2
        omega
  | finish t out =>
    simp only [step] at h
    split at h
    · exact absurd h (by simp)
    · rename_i hnow
      cases hp : s.phase with
      | idle => rw [hp] at h; exact absurd h (by simp)
      | cooling f => rw [hp] at h; exact absurd h (by simp)
      | running i st =>
        rw [hp] at h hph
        obtain ⟨hi, hfree, hst, hq, hle⟩ := hph
        cases h
        refine ⟨?_, ?_, ?_, ?_, ?_⟩
        · (try dsimp only)
          simp only [List.map_append, List.length_append, hidx, hi]
          simp [List.range_succ]
        · (try dsimp only)
          exact chain_snoc hchain hfree (by omega)
        · (try dsimp only)
          rw [nextFree_snoc]
        · (try dsimp only)
          simp only [List.length_append, List.length_singleton]
          simpa [hi] using hq
        · (try dsimp only)
          simp only [List.length_append, List.length_singleton]
          omega
  | fire t =>
    simp only [step] at h
    split at h
    · exact absurd h (by simp)
    · rename_i hnow
      cases hp : s.phase with
      | idle => rw [hp] at h; exact absurd h (by simp)
      | running i st => rw [hp] at h; exact absurd h (by simp)
      | cooling f =>
        rw [hp] at h hph
        dsimp only at h
        obtain ⟨hf, hq, hle⟩ := hph
        split at h
        · exact absurd h (by simp)
        · rename_i hft
          cases hqe : s.queue with
          | nil =>
            rw [hqe] at h
            dsimp only at h
            cases h
            refine ⟨hidx, hchain, ?_, ?_, ?_⟩
            · rfl
            · (try dsimp only)
              rw [hqe] at hq
              have : s.nextIdx - s.log.length = 0 := by
                by_contra hne
                rw [show s.nextIdx - s.log.length = (s.nextIdx - s.log.length - 1) + 1 by omega,
                  List.range'_succ] at hq
                exact absurd hq (by simp)
              omega
            · (try dsimp only)
              omega
          | cons hd rest =>
            rw [hqe] at h
            dsimp only at h
            cases h
            rw [hqe] at hq
            have hcnt : s.nextIdx - s.log.length ≠ 0 := by
              intro h0
              rw [h0] at hq
              exact absurd hq (by simp)
            rw [show s.nextIdx - s.log.length = (s.nextIdx - s.log.length - 1) + 1 by omega,
              List.range'_succ] at hq
            have hhd : hd = s.log.length := (List.cons.injEq _ _ _ _ ▸ hq).1
            have hrest : rest = List.range' (s.log.length + 1) (s.nextIdx - s.log.length - 1) :=
              (List.cons.injEq _ _ _ _ ▸ hq).2
            refine ⟨hidx, hchain, hhd, by (try dsimp only); omega, by (try dsimp only); omega, ?_, by (try dsimp only); omega⟩
            (try dsimp only)
            rw [hrest, hhd]
            congr 1
            all_goals omega

theorem run_inv {s s' : Sched} {tr : List Ev} (hI : SchedInv s) (h : run s tr = some s') : SchedInv s' := by
  induction tr generalizing s with
  | nil => simp only [run] at h; cases h; exact hI
  | cons e es ih =>
    simp only [run] at h
    cases hs : step s e with
    | none => rw [hs] at h; exact absurd h (by simp)
    | some s1 =>
      rw [hs] at h
      exact ih (step_inv hI hs) h

theorem schedInit_inv : SchedInv schedInit := by
  refine ⟨rfl, trivial, rfl, rfl, le_refl _⟩

/-- C1.  For every sequence of tasks submitted to the RequestScheduler,
tasks execute strictly one at a time with execution order equal to
submission order, and a task is never started until the previous task's
execution, including the fixed inter-task quiescence delay, has fully
finished.  Formalised over all valid event-loop traces of the embedded
scheduler: the completed-task log lists exactly the submission indices
0,1,2,... in order, the timing chain shows each task starting no earlier
than the previous task's finish time plus `delayMs` (hence no two
executions overlap), and a currently running task is the next submission
in order, started no earlier than the previous finish plus `delayMs`. -/
theorem C1_scheduler_fifo_serial (tr : List Ev) (s : Sched)
    (h : run schedInit tr = some s) :
    s.log.map Entry.idx = List.range s.log.length ∧
    Chain 0 s.log ∧
    (∀ i st, s.phase = .running i st → i = s.log.length ∧ nextFree 0 s.log ≤ st) := by
  have hI := run_inv schedInit_inv h
  obtain ⟨hidx, hchain, hph⟩ := hI
  refine ⟨hidx, hchain, ?_⟩
  intro i st hp
  rw [hp] at hph
  exact ⟨hph.1, hph.2.1⟩

/-- Witness for C1: a concrete trace with two submissions, where task 0 runs
over [0,5] and task 1 starts only at 15 = 5 + delayMs. -/
theorem C1_scheduler_fifo_serial_witness :
    run schedInit
        [Ev.submit 0, Ev.submit 2, Ev.finish 5 .ok, Ev.fire 15, Ev.finish 20 .ok, Ev.fire 30] =
      some { queue := [], phase := .idle, nextIdx := 2, now := 30,
             log := [⟨0, 0, 5, .ok⟩, ⟨1, 15, 20, .ok⟩] } ∧
    ([⟨0, 0, 5, .ok⟩, ⟨1, 15, 20, .ok⟩] : List Entry).map Entry.idx = List.range 2 ∧
    Chain 0 [⟨0, 0, 5, .ok⟩, ⟨1, 15, 20, .ok⟩] :=
  ⟨by decide,
   (C1_scheduler_fifo_serial
      [Ev.submit 0, Ev.submit 2, Ev.finish 5 .ok, Ev.fire 15, Ev.finish 20 .ok, Ev.fire 30]
      { queue := [], phase := .idle, nextIdx := 2, now := 30,
        log := [⟨0, 0, 5, .ok⟩, ⟨1, 15, 20, .ok⟩] } (by decide)).1,
   (C1_scheduler_fifo_serial
      [Ev.submit 0, Ev.submit 2, Ev.finish 5 .ok, Ev.fire 15, Ev.finish 20 .ok, Ev.fire 30]
      { queue := [], phase := .idle, nextIdx := 2, now := 30,
        log := [⟨0, 0, 5, .ok⟩, ⟨1, 15, 20, .ok⟩] } (by decide)).2.1⟩

/-- C3 (corrected): the claim asserts that after a rate-limit failure the
next task starts only after a backoff interval strictly longer than the
standard inter-task interval.  The embedded scheduler refutes this: a valid
trace exists in which task 0 fails rate-limited at time 5 and task 1 starts
at time 15 = 5 + delayMs, so no backoff bound strictly above `delayMs` can
hold. -/
theorem C3_backoff_counterexample :
    ¬ (∃ B, delayMs < B ∧ ∀ (tr : List Ev) (s : Sched), run schedInit tr = some s →
        ∀ (k : Nat) (e e' : Entry), s.log[k]? = some e → s.log[k + 1]? = some e' →
          e.out = .fail true → e.finishT + B ≤ e'.startT) := by
  rintro ⟨B, hB, hall⟩
  have h := hall
      [Ev.submit 0, Ev.submit 0, Ev.finish 5 (.fail true), Ev.fire 15, Ev.finish 20 .ok,
        Ev.fire 30]
      { queue := [], phase := .idle, nextIdx := 2, now := 30,
        log := [⟨0, 0, 5, .fail true⟩, ⟨1, 15, 20, .ok⟩] } (by decide)
      0 ⟨0, 0, 5, .fail true⟩ ⟨1, 15, 20, .ok⟩ (by decide) (by decide) rfl
  have hB' : 10 < B := hB
  dsimp only at h
  omega

/-- C3 amended: the scheduler applies the same fixed quiescence interval
`delayMs` after every task completion regardless of outcome — a rate-limit
failure schedules the cooldown timer at exactly `t + delayMs` like any other
outcome; no task is executed twice (no silent retry: completed indices are
pairwise distinct); and the failure is surfaced distinctly — a message
containing "429" (or lower-cased "quota") yields the dedicated quota reply,
anything else the generic error reply. -/
theorem C3_uniform_delay :
    (∀ (s s' : Sched) (i st t : Nat) (out : Outcome),
        s.phase = .running i st → step s (.finish t out) = some s' →
        s'.phase = .cooling (t + delayMs)) ∧
    (∀ (tr : List Ev) (s : Sched), run schedInit tr = some s →
        (s.log.map Entry.idx).Nodup) ∧
    (∀ msg : String, containsSub "429".data msg.data = true →
        errorReply msg =
          "I've run out of thinking power (Quota Exceeded). Please check your API Key settings.") ∧
    (∀ msg : String, containsSub "429".data msg.data = false →
        containsSub "quota".data (toLowerList msg.data) = false →
        errorReply msg = "Sorry, an error occurred. (" ++ msg ++ ")") := by
  refine ⟨?_, ?_, ?_, ?_⟩
  · intro s s' i st t out hp h
    simp only [step] at h
    split at h
    · exact absurd h (by simp)
    · rw [hp] at h
      cases h
      rfl
  · intro tr s h
    have hI := run_inv schedInit_inv h
    rw [hI.1]
    exact List.nodup_range _
  · intro msg h
    simp [errorReply, h]
  · intro msg h1 h2
    simp [errorReply, h1, h2]

/-- Witness for C3 amended: a finishing rate-limited task schedules the
cooldown at exactly finish + delayMs; a concrete run's completed indices
are pairwise distinct; a message containing 429 gets the quota reply. -/
theorem C3_uniform_delay_witness :
    ({ queue := [1], phase := .cooling (5 + delayMs), nextIdx := 2, now := 5,
       log := [⟨0, 0, 5, .fail true⟩] } : Sched).phase = .cooling (5 + delayMs) ∧
    (([⟨0, 0, 5, .fail true⟩, ⟨1, 15, 20, .ok⟩] : List Entry).map Entry.idx).Nodup ∧
    errorReply "got error 429" =
      "I've run out of thinking power (Quota Exceeded). Please check your API Key settings." :=
  ⟨C3_uniform_delay.1
      { queue := [1], phase := .running 0 0, nextIdx := 2, now := 0, log := [] }
      { queue := [1], phase := .cooling (5 + delayMs), nextIdx := 2, now := 5,
        log := [⟨0, 0, 5, .fail true⟩] }
      0 0 5 (.fail true) rfl (by decide),
   C3_uniform_delay.2.1
      [Ev.submit 0, Ev.submit 0, Ev.finish 5 (.fail true), Ev.fire 15, Ev.finish 20 .ok,
        Ev.fire 30]
      { queue := [], phase := .idle, nextIdx := 2, now := 30,
        log := [⟨0, 0, 5, .fail true⟩, ⟨1, 15, 20, .ok⟩] } (by decide),
   C3_uniform_delay.2.2.1 "got error 429" (by decide)⟩

/-- C4 (corrected): the claim asserts that a speak() call arriving while
narration audio is playing does not interrupt the in-flight audio.  The
embedded speakText refutes this: with a primary source playing, a new
unmuted call emits a stop of that very source. -/
theorem C4_counterexample :
    ¬ (∀ (st : TtsState) (text : String) (net : TtsNet) (a : Nat),
        st.currentAudioSource = some a →
        AudioEv.stopPrimary a ∉ (speakText st text false net).2) := by
  intro hall
  exact hall { currentAudioSource := some 7, currentFallbackAudio := none, nextSrc := 8 }
      "hi" (.audio true) 7 rfl (by decide)

/-- C4 amended: speakText is cancel-and-replace.  Every call begins by
stopping all in-flight audio: a muted call is exactly `stopAllSpeech`
(stopping playback and clearing both channels, queueing nothing), and an
unmuted call's very first emitted event stops the in-flight primary source.
There is no narration queue, so ordering across overlapping calls is not
preserved by the module itself. -/
theorem C4_speak_cancels_inflight :
    (∀ (st : TtsState) (text : String) (net : TtsNet),
        speakText st text true net = stopAllSpeech st) ∧
    (∀ st : TtsState, (stopAllSpeech st).1.currentAudioSource = none ∧
        (stopAllSpeech st).1.currentFallbackAudio = none) ∧
    (∀ (st : TtsState) (text : String) (net : TtsNet) (a : Nat),
        st.currentAudioSource = some a →
        ((speakText st text false net).2).head? = some (.stopPrimary a)) := by
  refine ⟨?_, ?_, ?_⟩
  · intro st text net
    simp [speakText]
  · intro st
    exact ⟨rfl, rfl⟩
  · intro st text net a ha
    have hsplit : ∃ rest, (speakText st text false net).2 = (stopAllSpeech st).2 ++ rest := by
      rcases net with _ | _ | ok
      · simp only [speakText, Bool.false_eq_true, if_false]
        split
        · exact ⟨[], by simp⟩
        · exact ⟨_, rfl⟩
      · simp only [speakText, Bool.false_eq_true, if_false]
        split
        · exact ⟨[], by simp⟩
        · exact ⟨_, rfl⟩
      · simp only [speakText, Bool.false_eq_true, if_false]
        split
        · exact ⟨[], by simp⟩
        · split
          · exact ⟨_, rfl⟩
          · exact ⟨(playAudioData (stopAllSpeech st).1 ok).2.1 ++
              (speakWithFallback (playAudioData (stopAllSpeech st).1 ok).1
                (cleanNarration text)).2, by simp⟩
    obtain ⟨rest, hr⟩ := hsplit
    rw [hr]
    rcases hf : st.currentFallbackAudio with _ | b <;>
      simp [stopAllSpeech, ha, hf]

/-- Witness for C4 amended: concrete instantiations of the three parts. -/
theorem C4_speak_cancels_inflight_witness :
    speakText { currentAudioSource := some 7, currentFallbackAudio := none, nextSrc := 8 }
        "x" true .apiFail =
      stopAllSpeech { currentAudioSource := some 7, currentFallbackAudio := none, nextSrc := 8 } ∧
    ((speakText { currentAudioSource := some 7, currentFallbackAudio := none, nextSrc := 8 }
        "hi" false (.audio true)).2).head? = some (.stopPrimary 7) :=
  ⟨C4_speak_cancels_inflight.1
      { currentAudioSource := some 7, currentFallbackAudio := none, nextSrc := 8 } "x" .apiFail,
   C4_speak_cancels_inflight.2.2
      { currentAudioSource := some 7, currentFallbackAudio := none, nextSrc := 8 }
      "hi" (.audio true) 7 rfl⟩

/-- Any fallback utterance started by speakWithFallback carries exactly the
truncated text. -/
theorem speakWithFallback_text {st : TtsState} {t : String} {src : Nat} {u : String}
    (h : AudioEv.startFallback src u ∈ (speakWithFallback st t).2) : u = fallbackText t := by
  rcases h1 : st.currentAudioSource with _ | a <;>
    rcases h2 : st.currentFallbackAudio with _ | b <;>
    simp [speakWithFallback, stopAllSpeech, h1, h2] at h <;>
    tauto

/-- stopAllSpeech never starts a fallback utterance. -/
theorem stopAllSpeech_no_fallback (st : TtsState) (src : Nat) (u : String) :
    AudioEv.startFallback src u ∉ (stopAllSpeech st).2 := by
  rcases h1 : st.currentAudioSource with _ | a <;>
    rcases h2 : st.currentFallbackAudio with _ | b <;>
    simp [stopAllSpeech, h1, h2]

/-- playAudioData never starts a fallback utterance. -/
theorem playAudioData_no_fallback (st : TtsState) (ok : Bool) (src : Nat) (u : String) :
    AudioEv.startFallback src u ∉ (playAudioData st ok).2.1 := by
  have h := stopAllSpeech_no_fallback st src u
  cases ok <;> simp [playAudioData] <;> simpa using h

/-- C9.  Whenever the fallback provider is used, any text longer than 200
characters is truncated to its first 200 characters before submission:
every fallback utterance emitted by speakText has length at most 200, and
equals the first 200 characters of the cleaned text whenever that text is
longer than 200 characters. -/
theorem C9_fallback_truncation (st : TtsState) (text : String) (muted : Bool) (net : TtsNet)
    (src : Nat) (uttered : String)
    (h : AudioEv.startFallback src uttered ∈ (speakText st text muted net).2) :
    uttered.length ≤ 200 ∧
    (200 < (cleanNarration text).length →
      uttered = String.mk ((cleanNarration text).data.take 200)) := by
  have hu : uttered = fallbackText (cleanNarration text) := by
    simp only [speakText] at h
    split at h
    · exact absurd h (stopAllSpeech_no_fallback st src uttered)
    · split at h
      · exact absurd h (stopAllSpeech_no_fallback st src uttered)
      · rcases net with _ | _ | ok
        · simp only [List.mem_append] at h
          rcases h with h | h
          · exact absurd h (stopAllSpeech_no_fallback st src uttered)
          · exact speakWithFallback_text h
        · simp only [List.mem_append] at h
          rcases h with h | h
          · exact absurd h (stopAllSpeech_no_fallback st src uttered)
          · exact speakWithFallback_text h
        · dsimp only at h
          split at h
          · simp only [List.mem_append] at h
            rcases h with h | h
            · exact absurd h (stopAllSpeech_no_fallback st src uttered)
            · exact absurd h (playAudioData_no_fallback _ ok src uttered)
          · simp only [List.mem_append] at h
            rcases h with (h | h) | h
            · exact absurd h (stopAllSpeech_no_fallback st src uttered)
            · exact absurd h (playAudioData_no_fallback _ ok src uttered)
            · exact speakWithFallback_text h
  subst hu
  unfold fallbackText
  split
  · rename_i hlong
    constructor
    · simp only [String.length, String.mk]
      simpa using Nat.min_le_left 200 (cleanNarration text).data.length
    · intro _
      rfl
  · rename_i hshort
    constructor
    · omega
    · intro hc
      omega

/-- Witness for C9: a 201-character input is truncated to 200 characters on
the fallback path. -/
theorem C9_fallback_truncation_witness :
    (AudioEv.startFallback 0 (String.mk (List.replicate 200 'a')) ∈
      (speakText { currentAudioSource := none, currentFallbackAudio := none, nextSrc := 0 }
        (String.mk (List.replicate 201 'a')) false .apiFail).2) ∧
    (String.mk (List.replicate 200 'a')).length ≤ 200 :=
  ⟨by decide,
   (C9_fallback_truncation
      { currentAudioSource := none, currentFallbackAudio := none, nextSrc := 0 }
      (String.mk (List.replicate 201 'a')) false .apiFail 0
      (String.mk (List.replicate 200 'a')) (by decide)).1⟩

/-- C5 (corrected): the claim says the bracket-substring fallback is tried
"otherwise", i.e. whenever the strict whole-text parse is not accepted as
an array.  The code tries it only when the strict parse THROWS: on input
consisting of a JSON object containing an array, the strict parse succeeds
with a non-array, the code yields no commands and matched = false, whereas
the claim's reading extracts the inner array and reports matched = true. -/
theorem C5_counterexample :
    extractCommands "\x7b\"a\":[1]\x7d" = ([], false) ∧
    (claimExtractCommands "\x7b\"a\":[1]\x7d").2 = true ∧
    (claimExtractCommands "\x7b\"a\":[1]\x7d").1.length = 1 :=
  ⟨rfl, rfl, rfl⟩

/-- C5 amended: extraction first strips code fences; the strict whole-text
parse is accepted only if its result is an array; a strict parse that
SUCCEEDS with a non-array yields matched = false with no commands and no
fallback attempt; only when the strict parse throws is the substring from
the first opening to the last closing bracket parsed, accepted only if it
is an array; matched = false always comes with an empty command list, and
the caller then falls back to the raw text as the reply. -/
theorem C5_extract_behavior (rawText : String) :
    (∀ l, jsonParse (cleanJsonString rawText) = some (Json.arr l) →
        extractCommands rawText = (l, decide (0 < l.length))) ∧
    (∀ v, jsonParse (cleanJsonString rawText) = some v →
        (∀ l, v ≠ Json.arr l) → extractCommands rawText = ([], false)) ∧
    (jsonParse (cleanJsonString rawText) = none →
      ∀ i j l, firstIdxOf '[' (cleanJsonString rawText).data = some i →
        lastIdxOf ']' (cleanJsonString rawText).data = some j →
        jsonParse (String.mk (jsSubstring (cleanJsonString rawText).data i (j + 1))) =
          some (Json.arr l) →
        extractCommands rawText = (l, decide (0 < l.length))) ∧
    ((extractCommands rawText).2 = false → (extractCommands rawText).1 = []) ∧
    ((extractCommands rawText).2 = false → ∀ (ts : Nat → Nat) (rs : Nat → String) (c0 : Nat),
        (synthesize (extractCommands rawText).1 ts rs c0).1 = []) ∧
    (∀ language, String.mk (trimList rawText.data) ≠ "" →
        fallbackReply rawText language = rawText) := by
  refine ⟨?_, ?_, ?_, ?_, ?_, ?_⟩
  · intro l h
    simp [extractCommands, h]
  · intro v h hne
    cases v with
    | arr l => exact absurd rfl (hne l)
    | null => simp [extractCommands, h]
    | bool b => simp [extractCommands, h]
    | num q => simp [extractCommands, h]
    | str s => simp [extractCommands, h]
    | obj fs => simp [extractCommands, h]
  · intro h i j l hi hj hsub
    simp [extractCommands, h, hi, hj, hsub]
  · intro h
    have h2 : (extractCommands rawText).2 = decide (0 < (extractCommands rawText).1.length) := rfl
    rw [h] at h2
    have h3 : ¬ 0 < (extractCommands rawText).1.length := of_decide_eq_false h2.symm
    exact List.eq_nil_of_length_eq_zero (by omega)
  · intro h ts rs c0
    have h2 : (extractCommands rawText).2 = decide (0 < (extractCommands rawText).1.length) := rfl
    rw [h] at h2
    have h3 : ¬ 0 < (extractCommands rawText).1.length := of_decide_eq_false h2.symm
    have h4 : (extractCommands rawText).1 = [] := List.eq_nil_of_length_eq_zero (by omega)
    rw [h4]
    rfl
  · intro language hne
    simp [fallbackReply, hne]

/-- Witness for C5 amended: a strict array is accepted as-is; a whole-text
object yields no commands; a wrapped array is recovered by the bracket
slice after a strict parse failure; a nonblank unmatched text is returned
verbatim. -/
theorem C5_extract_behavior_witness :
    extractCommands "[1]" = ([Json.num 1], decide (0 < [Json.num 1].length)) ∧
    extractCommands "\x7b\x7d" = ([], false) ∧
    extractCommands "x[1]" = ([Json.num 1], decide (0 < [Json.num 1].length)) ∧
    (synthesize (extractCommands "no commands here").1 (fun _ => 0) (fun _ => "r") 0).1 = [] ∧
    fallbackReply "no commands here" "en" = "no commands here" :=
  ⟨(C5_extract_behavior "[1]").1 [Json.num 1] rfl,
   (C5_extract_behavior "\x7b\x7d").2.1 (Json.obj []) rfl
     (fun l h => Json.noConfusion h),
   (C5_extract_behavior "x[1]").2.2.1 rfl 1 3 [Json.num 1] rfl rfl rfl,
   (C5_extract_behavior "no commands here").2.2.2.2.1 rfl (fun _ => 0) (fun _ => "r") 0,
   (C5_extract_behavior "no commands here").2.2.2.2.2 "en" (by decide)⟩

theorem splitCmds_eq (commands : List Json) :
    splitCmds commands = (commands.filter isNodeCmd, commands.filter isEdgeCmd) := by
  induction commands with
  | nil => rfl
  | cons cmd rest ih =>
    cases hv : jgetField cmd "action" with
    | none => simp [splitCmds, hv, ih, List.filter_cons, isNodeCmd, isEdgeCmd, jTruthy]
    | some v =>
      cases v with
      | str a =>
        by_cases hc : a = "connect"
        · simp [splitCmds, hv, ih, List.filter_cons, isNodeCmd, isEdgeCmd, hc]
        · by_cases he : a = ""
          · simp [splitCmds, hv, ih, List.filter_cons, isNodeCmd, isEdgeCmd, hc, he]
          · simp [splitCmds, hv, ih, List.filter_cons, isNodeCmd, isEdgeCmd, hc, he]
      | null => simp [splitCmds, hv, ih, List.filter_cons, isNodeCmd, isEdgeCmd, jTruthy]
      | bool b =>
        cases b <;> simp [splitCmds, hv, ih, List.filter_cons, isNodeCmd, isEdgeCmd, jTruthy]
      | num q =>
        by_cases hz : q = 0
        · simp [splitCmds, hv, ih, List.filter_cons, isNodeCmd, isEdgeCmd, jTruthy, hz]
        · simp [splitCmds, hv, ih, List.filter_cons, isNodeCmd, isEdgeCmd, jTruthy, hz]
      | arr l => simp [splitCmds, hv, ih, List.filter_cons, isNodeCmd, isEdgeCmd, jTruthy]
      | obj fs => simp [splitCmds, hv, ih, List.filter_cons, isNodeCmd, isEdgeCmd, jTruthy]

theorem pass1_eq (ts : Nat → Nat) (rs : Nat → String) (nodes : List Json)
    (m : String → Option String) (k : Nat) (acc : List (Json × Json)) :
    pass1 ts rs nodes m k acc =
      (mapPass ts rs nodes m k, k + nodes.length, acc ++ createsFrom ts rs k nodes) := by
  induction nodes generalizing m k acc with
  | nil => simp [pass1, mapPass, createsFrom]
  | cons node rest ih =>
    simp only [pass1, mapPass, createsFrom, List.length_cons]
    rw [ih]
    simp only [List.append_assoc, List.singleton_append]
    have h : k + 1 + rest.length = k + (rest.length + 1) := by omega
    rw [h]

theorem pass2_eq (m : String → Option String) (edges : List Json) (acc : List (Json × Json)) :
    pass2 m edges acc = acc ++ edgesSpec m edges := by
  induction edges generalizing acc with
  | nil => simp [pass2, edgesSpec]
  | cons cmd rest ih =>
    by_cases hcond : (strTruthy (m (refKey cmd "from")) && strTruthy (m (refKey cmd "to"))) = true
    · simp only [pass2, edgesSpec, List.filterMap_cons, if_pos hcond, ih]
      (try simp [edgesSpec])
    · simp only [pass2, edgesSpec, List.filterMap_cons, if_neg hcond, ih]
      (try simp [edgesSpec])

theorem synthesize_map_eq (commands : List Json) (ts : Nat → Nat) (rs : Nat → String)
    (c0 : Nat) (q : String) :
    (synthesize commands ts rs c0).2.1 q =
      mapPass ts rs (commands.filter isNodeCmd) (fun _ => none) c0 q := by
  have hs := splitCmds_eq commands
  simp [synthesize, hs, pass1_eq]

/-- C2.  Two-pass synthesis: the invocation trace of a batch is exactly the
element-creation calls, one per non-Connect command in original order, each
carrying the freshly generated finalId of its position, followed by the
edge-creation calls for exactly those Connect commands whose from/to both
resolve through the batch's finished IdentityMap — the edge callback
receives finalIds, an unresolvable Connect contributes no call and aborts
nothing, and the function is total (never raises). -/
theorem C2_two_pass_synthesis (commands : List Json) (ts : Nat → Nat) (rs : Nat → String)
    (c0 : Nat) :
    (synthesize commands ts rs c0).1 =
      createsFrom ts rs c0 (commands.filter isNodeCmd) ++
        edgesSpec (mapPass ts rs (commands.filter isNodeCmd) (fun _ => none) c0)
          (commands.filter isEdgeCmd) ∧
    (∀ q, (synthesize commands ts rs c0).2.1 q =
        mapPass ts rs (commands.filter isNodeCmd) (fun _ => none) c0 q) ∧
    (synthesize commands ts rs c0).2.2 = c0 + (commands.filter isNodeCmd).length := by
  have hs := splitCmds_eq commands
  refine ⟨?_, ?_, ?_⟩
  · simp [synthesize, hs, pass1_eq, pass2_eq]
  · intro q
    exact synthesize_map_eq commands ts rs c0 q
  · simp [synthesize, hs, pass1_eq]

theorem digitChar_ne_dash (m : Nat) : Nat.digitChar m ≠ '-' := by
  by_cases h0 : m = 0
  · subst h0; decide
  by_cases h1 : m = 1
  · subst h1; decide
  by_cases h2 : m = 2
  · subst h2; decide
  by_cases h3 : m = 3
  · subst h3; decide
  by_cases h4 : m = 4
  · subst h4; decide
  by_cases h5 : m = 5
  · subst h5; decide
  by_cases h6 : m = 6
  · subst h6; decide
  by_cases h7 : m = 7
  · subst h7; decide
  by_cases h8 : m = 8
  · subst h8; decide
  by_cases h9 : m = 9
  · subst h9; decide
  by_cases h10 : m = 10
  · subst h10; decide
  by_cases h11 : m = 11
  · subst h11; decide
  by_cases h12 : m = 12
  · subst h12; decide
  by_cases h13 : m = 13
  · subst h13; decide
  by_cases h14 : m = 14
  · subst h14; decide
  by_cases h15 : m = 15
  · subst h15; decide
  by_cases h16 : m = 16
  · subst h16; decide
  · simp [Nat.digitChar, h0, h1, h2, h3, h4, h5, h6, h7, h8, h9, h10, h11, h12, h13, h14, h15, h16]

theorem toDigitsCore_ne_dash (fuel : Nat) : ∀ (n : Nat) (acc : List Char),
    (∀ c ∈ acc, c ≠ '-') → ∀ c ∈ Nat.toDigitsCore 10 fuel n acc, c ≠ '-' := by
  induction fuel with
  | zero => intro n acc hacc; simpa [Nat.toDigitsCore] using hacc
  | succ fuel ih =>
    intro n acc hacc
    simp only [Nat.toDigitsCore]
    split
    · intro c hc
      rcases List.mem_cons.mp hc with h | h
      · subst h; exact digitChar_ne_dash _
      · exact hacc c h
    · refine ih _ _ ?_
      intro c hc
      rcases List.mem_cons.mp hc with h | h
      · subst h; exact digitChar_ne_dash _
      · exact hacc c h

theorem repr_ne_dash (n : Nat) : ∀ c ∈ (Nat.repr n).data, c ≠ '-' :=
  toDigitsCore_ne_dash (n + 1) n [] (by simp)

theorem dashFree_split (a1 : List Char) : ∀ (a2 r1 r2 : List Char),
    (∀ c ∈ a1, c ≠ '-') → (∀ c ∈ a2, c ≠ '-') →
    a1 ++ '-' :: r1 = a2 ++ '-' :: r2 → a1 = a2 ∧ r1 = r2 := by
  induction a1 with
  | nil =>
    intro a2 r1 r2 _ h2 heq
    cases a2 with
    | nil => simpa using heq
    | cons c a2' =>
      simp only [List.nil_append, List.cons_append, List.cons.injEq] at heq
      exact absurd heq.1.symm (h2 c (by simp))
  | cons c a1' ih =>
    intro a2 r1 r2 h1 h2 heq
    cases a2 with
    | nil =>
      simp only [List.nil_append, List.cons_append, List.cons.injEq] at heq
      exact absurd heq.1 (h1 c (by simp))
    | cons d a2' =>
      simp only [List.cons_append, List.cons.injEq] at heq
      obtain ⟨hcd, heq'⟩ := heq
      obtain ⟨ha, hr⟩ := ih a2' r1 r2 (fun x hx => h1 x (by simp [hx]))
        (fun x hx => h2 x (by simp [hx])) heq'
      exact ⟨by rw [hcd, ha], hr⟩

theorem mkFinalId_inj_suffix {ts : Nat → Nat} {rs : Nat → String} {a b : Nat}
    (h : mkFinalId ts rs a = mkFinalId ts rs b) : rs a = rs b := by
  have hd := congrArg String.data h
  simp only [mkFinalId, String.data_append] at hd
  simp only [List.append_assoc, List.cons_append, List.nil_append, List.cons.injEq,
    true_and] at hd
  obtain ⟨-, htail⟩ := dashFree_split _ _ _ _ (repr_ne_dash _) (repr_ne_dash _) hd
  exact congrArg String.mk htail

theorem mem_idsFrom {ts : Nat → Nat} {rs : Nat → String} :
    ∀ {n k : Nat} {x : String}, x ∈ idsFrom ts rs k n →
      ∃ i, i < n ∧ x = mkFinalId ts rs (k + i) := by
  intro n
  induction n with
  | zero => intro k x hx; simp [idsFrom] at hx
  | succ n ih =>
    intro k x hx
    simp only [idsFrom, List.mem_cons] at hx
    rcases hx with h | h
    · exact ⟨0, by omega, by simpa using h⟩
    · obtain ⟨i, hi, hx⟩ := ih h
      refine ⟨i + 1, by omega, ?_⟩
      rw [hx]
      congr 1
      omega

theorem idsFrom_nodup (ts : Nat → Nat) (rs : Nat → String) : ∀ (n k : Nat),
    (∀ i j, i < n → j < n → i ≠ j → rs (k + i) ≠ rs (k + j)) →
    (idsFrom ts rs k n).Nodup := by
  intro n
  induction n with
  | zero => intro k _; simp [idsFrom]
  | succ n ih =>
    intro k h
    simp only [idsFrom, List.nodup_cons]
    constructor
    · intro hmem
      obtain ⟨i, hi, hx⟩ := mem_idsFrom hmem
      have hsuf := mkFinalId_inj_suffix hx
      have hne := h 0 (i + 1) (by omega) (by omega) (by omega)
      apply hne
      rw [show k + 0 = k by omega, show k + (i + 1) = k + 1 + i by omega]
      exact hsuf
    · refine ih (k + 1) ?_
      intro i j hi hj hij
      have := h (i + 1) (j + 1) (by omega) (by omega) (by omega)
      rw [show k + (i + 1) = k + 1 + i by omega, show k + (j + 1) = k + 1 + j by omega] at this
      exact this

theorem idsFrom_append (ts : Nat → Nat) (rs : Nat → String) : ∀ (n m k : Nat),
    idsFrom ts rs k n ++ idsFrom ts rs (k + n) m = idsFrom ts rs k (n + m) := by
  intro n
  induction n with
  | zero => intro m k; simp [idsFrom]
  | succ n ih =>
    intro m k
    rw [show n + 1 + m = (n + m) + 1 by omega]
    simp only [idsFrom, List.cons_append]
    rw [show k + (n + 1) = k + 1 + n by omega, ih]

theorem idsOfBatches_eq (ts : Nat → Nat) (rs : Nat → String) :
    ∀ (batches : List (List Json)) (c0 : Nat),
      idsOfBatches ts rs batches c0 = idsFrom ts rs c0 (totalNodes batches) := by
  intro batches
  induction batches with
  | nil => intro c0; rfl
  | cons b rest ih =>
    intro c0
    simp only [idsOfBatches, totalNodes, ih]
    exact idsFrom_append ts rs _ _ _

/-- C8 (corrected): the claim quantifies over all values of the timestamp
and random sources; with a constant timestamp and a repeating random
suffix, two node commands in one batch receive the same finalId. -/
theorem C8_counterexample :
    ¬ (∀ (ts : Nat → Nat) (rs : Nat → String) (batches : List (List Json)),
        (idsOfBatches ts rs batches 0).Nodup) := by
  intro hall
  exact absurd
    (hall (fun _ => 0) (fun _ => "r")
      [[Json.obj [("action", Json.str "addNote")], Json.obj [("action", Json.str "addNote")]]])
    (by decide)

/-- C8 amended: the finalIds assigned during pass 1 are globally unique —
within one batch and across batches — provided the random suffixes
generated for the relevant calls are pairwise distinct; uniqueness is
exactly as strong as the timestamp+random generator (a repeated
timestamp-and-suffix pair collides). -/
theorem C8_unique_when_suffixes_distinct (ts : Nat → Nat) (rs : Nat → String)
    (batches : List (List Json))
    (h : ∀ i j, i < totalNodes batches → j < totalNodes batches → i ≠ j → rs i ≠ rs j) :
    (idsOfBatches ts rs batches 0).Nodup := by
  rw [idsOfBatches_eq]
  refine idsFrom_nodup ts rs (totalNodes batches) 0 ?_
  simpa using h

/-- Witness for C8 amended: two distinct random suffixes yield two distinct
finalIds for a batch of two note commands. -/
theorem C8_unique_when_suffixes_distinct_witness :
    (idsOfBatches (fun _ => 0) (fun k => String.mk (List.replicate (k + 1) 'r'))
      [[Json.obj [("action", Json.str "addNote")], Json.obj [("action", Json.str "addNote")]]]
      0).Nodup :=
  C8_unique_when_suffixes_distinct _ _ _ (by
    intro i j hi hj hne
    have ht : totalNodes
        [[Json.obj [("action", Json.str "addNote")], Json.obj [("action", Json.str "addNote")]]] =
          2 := rfl
    rw [ht] at hi hj
    interval_cases i <;> interval_cases j <;> first | exact absurd rfl hne | decide)

theorem isNodeCmd_truthy {cmd : Json} (h : isNodeCmd cmd = true) :
    jTruthy (jgetField cmd "action") = true := by
  unfold isNodeCmd at h
  cases hv : jgetField cmd "action" with
  | none => rw [hv] at h; simpa [jTruthy] using h
  | some v =>
    cases v with
    | str a =>
      rw [hv] at h
      simp only [Bool.and_eq_true, Bool.not_eq_true'] at h
      simp [jTruthy, h.2]
    | null => rw [hv] at h; simpa [jTruthy] using h
    | bool bb => rw [hv] at h; simpa [jTruthy] using h
    | num q => rw [hv] at h; simpa [jTruthy] using h
    | arr l => rw [hv] at h; simpa [jTruthy] using h
    | obj fs => rw [hv] at h; simpa [jTruthy] using h

theorem isEdgeCmd_truthy {cmd : Json} (h : isEdgeCmd cmd = true) :
    jTruthy (jgetField cmd "action") = true := by
  unfold isEdgeCmd at h
  cases hv : jgetField cmd "action" with
  | none => rw [hv] at h; simp at h
  | some v =>
    cases v with
    | str a =>
      rw [hv] at h
      have ha : a = "connect" := by simpa using h
      simp [jTruthy, ha]
    | null => rw [hv] at h; simp at h
    | bool bb => rw [hv] at h; simp at h
    | num q => rw [hv] at h; simp at h
    | arr l => rw [hv] at h; simp at h
    | obj fs => rw [hv] at h; simp at h

theorem splitCmds_filter_truthy (commands : List Json) :
    splitCmds (commands.filter (fun cmd => jTruthy (jgetField cmd "action"))) =
      splitCmds commands := by
  rw [splitCmds_eq, splitCmds_eq, List.filter_filter, List.filter_filter]
  congr 1
  · apply List.filter_congr
    intro cmd _
    cases h : isNodeCmd cmd
    · simp
    · simp [isNodeCmd_truthy h]
  · apply List.filter_congr
    intro cmd _
    cases h : isEdgeCmd cmd
    · simp
    · simp [isEdgeCmd_truthy h]

theorem mapPass_mono (ts : Nat → Nat) (rs : Nat → String) :
    ∀ (nodes : List Json) (m : String → Option String) (k : Nat) (q : String) (v : String),
      m q = some v → ∃ w, mapPass ts rs nodes m k q = some w := by
  intro nodes
  induction nodes with
  | nil => intro m k q v h; exact ⟨v, h⟩
  | cons node rest ih =>
    intro m k q v h
    simp only [mapPass]
    split
    · unfold updateMap
      by_cases hq : q = jsDisplay (jgetField node "id")
      · exact ih _ _ _ (mkFinalId ts rs k) (by simp [hq])
      · exact ih _ _ _ v (by simp [hq, h])
    · exact ih _ _ _ v h

theorem mapPass_mem (ts : Nat → Nat) (rs : Nat → String) :
    ∀ (nodes : List Json) (m : String → Option String) (k : Nat) (cmd : Json),
      cmd ∈ nodes → jTruthy (jgetField cmd "id") = true →
      ∃ v, mapPass ts rs nodes m k (jsDisplay (jgetField cmd "id")) = some v := by
  intro nodes
  induction nodes with
  | nil => intro m k cmd hmem; simp at hmem
  | cons node rest ih =>
    intro m k cmd hmem hid
    rcases List.mem_cons.mp hmem with h | h
    · subst h
      simp only [mapPass, hid, if_true]
      exact mapPass_mono ts rs rest _ _ _ (mkFinalId ts rs k) (by simp [updateMap])
    · simp only [mapPass]
      split
      · exact ih _ _ cmd h hid
      · exact ih _ _ cmd h hid

/-- C6 (corrected): the claim says an object with an unrecognised kind is
"not recorded in the IdentityMap".  In the code, pass 1 records
tempIdMap[node.id] for EVERY truthy-action non-connect command — including
unrecognised kinds like "addFoo" — before the tool callback runs. -/
theorem C6_counterexample :
    ¬ (∀ (commands : List Json) (ts : Nat → Nat) (rs : Nat → String) (cmd : Json) (a : String),
        cmd ∈ commands → jgetField cmd "action" = some (Json.str a) →
        a ∉ knownToolNames → jTruthy (jgetField cmd "id") = true →
        (synthesize commands ts rs 0).2.1 (jsDisplay (jgetField cmd "id")) = none) := by
  intro hall
  have h := hall [Json.obj [("action", Json.str "addFoo"), ("id", Json.str "a")]]
      (fun _ => 0) (fun _ => "r")
      (Json.obj [("action", Json.str "addFoo"), ("id", Json.str "a")]) "addFoo"
      (by simp) rfl (by decide) rfl
  rw [show (synthesize [Json.obj [("action", Json.str "addFoo"), ("id", Json.str "a")]]
      (fun _ => 0) (fun _ => "r") 0).2.1
      (jsDisplay (jgetField (Json.obj [("action", Json.str "addFoo"), ("id", Json.str "a")]) "id"))
      = some "ai-0-r" from rfl] at h
  exact Option.noConfusion h

/-- C6 amended: objects whose action is missing or falsy are silently and
completely dropped — filtering them away changes neither the call trace,
the IdentityMap nor the generation counter; an object with an unrecognised
non-empty, non-connect action IS processed by pass 1 (its truthy localId is
recorded in the IdentityMap) and reaches the tool callback, which creates
no element and changes nothing; neither case is a fatal error for the rest
of the batch. -/
theorem C6_drop_behavior :
    (∀ (commands : List Json) (ts : Nat → Nat) (rs : Nat → String) (c0 : Nat),
        synthesize commands ts rs c0 =
          synthesize (commands.filter (fun cmd => jTruthy (jgetField cmd "action"))) ts rs c0) ∧
    (∀ (commands : List Json) (ts : Nat → Nat) (rs : Nat → String) (c0 : Nat)
        (cmd : Json) (a : String),
        cmd ∈ commands → jgetField cmd "action" = some (Json.str a) →
        a ≠ "" → a ≠ "connect" → jTruthy (jgetField cmd "id") = true →
        ∃ v, (synthesize commands ts rs c0).2.1 (jsDisplay (jgetField cmd "id")) = some v) ∧
    (∀ s : String, s ∉ knownToolNames →
        ∀ (imgUrl : String → String) (args : Json) (r1 r2 : Real) (er : String) (b : Board),
          handleToolCall imgUrl (Json.str s) args r1 r2 er b = (b, none)) := by
  refine ⟨?_, ?_, ?_⟩
  · intro commands ts rs c0
    unfold synthesize
    rw [splitCmds_filter_truthy]
  · intro commands ts rs c0 cmd a hmem hact hne hnc hid
    have hnode : isNodeCmd cmd = true := by
      unfold isNodeCmd
      rw [hact]
      simp [hne, hnc]
    have hmem' : cmd ∈ commands.filter isNodeCmd := List.mem_filter.mpr ⟨hmem, hnode⟩
    rw [synthesize_map_eq commands ts rs c0 (jsDisplay (jgetField cmd "id"))]
    exact mapPass_mem ts rs _ _ _ cmd hmem' hid
  · intro s hs imgUrl args r1 r2 er b
    simp only [knownToolNames, List.mem_cons, List.not_mem_nil, or_false] at hs
    push_neg at hs
    obtain ⟨h1, h2, h3, h4, h5, h6, h7, h8, h9, h10⟩ := hs
    simp only [handleToolCall]
    split
    · rfl
    · simp [h1, h2, h3, h4, h5, h6, h7, h8, h9, h10]

/-- Witness for C6 amended: a batch with an action-less object synthesises
exactly like the batch with it removed; an "addFoo" command's localId is
recorded in the map; handleToolCall on "addFoo" changes nothing. -/
theorem C6_drop_behavior_witness :
    synthesize [Json.obj [("x", Json.num 1)]] (fun _ => 0) (fun _ => "r") 0 =
      synthesize ([Json.obj [("x", Json.num 1)]].filter
        (fun cmd => jTruthy (jgetField cmd "action"))) (fun _ => 0) (fun _ => "r") 0 ∧
    (∃ v, (synthesize [Json.obj [("action", Json.str "addFoo"), ("id", Json.str "a")]]
        (fun _ => 0) (fun _ => "r") 0).2.1
        (jsDisplay (jgetField
          (Json.obj [("action", Json.str "addFoo"), ("id", Json.str "a")]) "id")) = some v) ∧
    handleToolCall (fun _ => "") (Json.str "addFoo")
        (Json.obj [("id", Json.str "a")]) 0 0 "z" { nodes := [], edges := [] } =
      ({ nodes := [], edges := [] }, none) :=
  ⟨C6_drop_behavior.1 [Json.obj [("x", Json.num 1)]] (fun _ => 0) (fun _ => "r") 0,
   C6_drop_behavior.2.1 [Json.obj [("action", Json.str "addFoo"), ("id", Json.str "a")]]
      (fun _ => 0) (fun _ => "r") 0
      (Json.obj [("action", Json.str "addFoo"), ("id", Json.str "a")]) "addFoo"
      (by simp) rfl (by decide) (by decide) rfl,
   C6_drop_behavior.2.2 "addFoo" (by decide) (fun _ => "")
      (Json.obj [("id", Json.str "a")]) 0 0 "z" { nodes := [], edges := [] }⟩

theorem mkSatellites_len (rootId : String) (cx cy radius step : Real) :
    ∀ (l : List Json) (k0 : Nat),
      (mkSatellites rootId cx cy radius step k0 l).1.length = l.length ∧
      (mkSatellites rootId cx cy radius step k0 l).2.length = l.length := by
  intro l
  induction l with
  | nil => intro k0; simp [mkSatellites]
  | cons node rest ih =>
    intro k0
    simp only [mkSatellites, List.length_cons]
    exact ⟨by rw [(ih (k0 + 1)).1], by rw [(ih (k0 + 1)).2]⟩

theorem mkSatellites_sat (rootId : String) (cx cy radius step : Real) :
    ∀ (l : List Json) (k0 i : Nat) (sat : FlowNode),
      (mkSatellites rootId cx cy radius step k0 l).1[i]? = some sat →
      sat.px = cx + radius * Real.cos ((k0 + i : Nat) * step - Real.pi / 2) - 112 ∧
      sat.py = cy + radius * Real.sin ((k0 + i : Nat) * step - Real.pi / 2) - 70 := by
  intro l
  induction l with
  | nil => intro k0 i sat h; simp [mkSatellites] at h
  | cons node rest ih =>
    intro k0 i sat h
    cases i with
    | zero =>
      simp only [mkSatellites, List.getElem?_cons_zero, Option.some.injEq] at h
      subst h
      simp
    | succ i =>
      simp only [mkSatellites, List.getElem?_cons_succ] at h
      have := ih (k0 + 1) i sat h
      rw [show k0 + (i + 1) = k0 + 1 + i by omega]
      exact this

theorem mkSatellites_edge (rootId : String) (cx cy radius step : Real) :
    ∀ (l : List Json) (k0 i : Nat) (edge : FlowEdge),
      (mkSatellites rootId cx cy radius step k0 l).2[i]? = some edge →
      edge.source = rootId ∧
      ∃ sat, (mkSatellites rootId cx cy radius step k0 l).1[i]? = some sat ∧
        edge.target = sat.id := by
  intro l
  induction l with
  | nil => intro k0 i edge h; simp [mkSatellites] at h
  | cons node rest ih =>
    intro k0 i edge h
    cases i with
    | zero =>
      simp only [mkSatellites, List.getElem?_cons_zero, Option.some.injEq] at h
      subst h
      refine ⟨rfl, ?_⟩
      simp only [mkSatellites, List.getElem?_cons_zero, Option.some.injEq]
      exact ⟨_, rfl, rfl⟩
    | succ i =>
      simp only [mkSatellites, List.getElem?_cons_succ] at h
      have := ih (k0 + 1) i edge h
      simpa only [mkSatellites, List.getElem?_cons_succ] using this

/-- C7.  Mind-map expansion with N ≥ 1 satellites creates exactly one
center node plus N satellite nodes and N edges, each edge connecting a
satellite back to the center; relative to the center node, satellite k
lies at radius max(250, N*45) and angle k*(2*pi/N) - pi/2 (so on the
circle of that radius around the center, evenly spaced by 2*pi/N starting
from the top). -/
theorem C7_mindmap_layout (imgUrl : String → String) (args : Json) (r1 r2 : Real) (er : String)
    (b : Board) (mind : List Json)
    (hmind : jgetField args "nodes" = some (Json.arr mind))
    (hN : 1 ≤ mind.length)
    (hid : jTruthy (jgetField args "id") = true) :
    (handleToolCall imgUrl (Json.str "addMindMap") args r1 r2 er b).1.nodes =
      b.nodes ++ mindCenterNode args r1 r2 :: (mindSats args r1 r2 mind).1 ∧
    (handleToolCall imgUrl (Json.str "addMindMap") args r1 r2 er b).1.edges =
      b.edges ++ (mindSats args r1 r2 mind).2 ∧
    (mindSats args r1 r2 mind).1.length = mind.length ∧
    (mindSats args r1 r2 mind).2.length = mind.length ∧
    (∀ (k : Nat) (sat : FlowNode), (mindSats args r1 r2 mind).1[k]? = some sat →
      sat.px - (mindCenterNode args r1 r2).px =
        max (250 : Real) ((mind.length : Real) * 45) *
          Real.cos ((k : Nat) * (2 * Real.pi / mind.length) - Real.pi / 2) ∧
      sat.py - (mindCenterNode args r1 r2).py =
        max (250 : Real) ((mind.length : Real) * 45) *
          Real.sin ((k : Nat) * (2 * Real.pi / mind.length) - Real.pi / 2) ∧
      (sat.px - (mindCenterNode args r1 r2).px) ^ 2 +
          (sat.py - (mindCenterNode args r1 r2).py) ^ 2 =
        max (250 : Real) ((mind.length : Real) * 45) ^ 2) ∧
    (∀ (k : Nat) (edge : FlowEdge), (mindSats args r1 r2 mind).2[k]? = some edge →
      edge.source = (mindCenterNode args r1 r2).id ∧
      ∃ sat, (mindSats args r1 r2 mind).1[k]? = some sat ∧ edge.target = sat.id) := by
  have hpos : 0 < mind.length := hN
  refine ⟨?_, ?_, ?_, ?_, ?_, ?_⟩
  · simp [handleToolCall, hid, hmind, hpos, mindCenterNode, mindSats]
  · simp [handleToolCall, hid, hmind, hpos, mindSats]
  · exact (mkSatellites_len _ _ _ _ _ mind 0).1
  · exact (mkSatellites_len _ _ _ _ _ mind 0).2
  · intro k sat hk
    have hs := mkSatellites_sat _ _ _ _ _ mind 0 k sat hk
    have hzk : ((0 + k : Nat) : Real) = (k : Nat) := by norm_num
    rw [hzk] at hs
    have hx : sat.px - (mindCenterNode args r1 r2).px =
        max (250 : Real) ((mind.length : Real) * 45) *
          Real.cos ((k : Nat) * (2 * Real.pi / mind.length) - Real.pi / 2) := by
      rw [hs.1]
      simp only [mindCenterNode]
      ring
    have hy : sat.py - (mindCenterNode args r1 r2).py =
        max (250 : Real) ((mind.length : Real) * 45) *
          Real.sin ((k : Nat) * (2 * Real.pi / mind.length) - Real.pi / 2) := by
      rw [hs.2]
      simp only [mindCenterNode]
      ring
    refine ⟨hx, hy, ?_⟩
    rw [hx, hy]
    linear_combination (max (250 : Real) ((mind.length : Real) * 45) ^ 2) *
      Real.sin_sq_add_cos_sq ((k : Nat) * (2 * Real.pi / mind.length) - Real.pi / 2)
  · intro k edge hk
    exact mkSatellites_edge _ _ _ _ _ mind 0 k edge hk

/-- Witness for C7: a mind map with 4 satellites on an empty board. -/
theorem C7_mindmap_layout_witness :
    (handleToolCall (fun _ => "") (Json.str "addMindMap")
        (Json.obj [("id", Json.str "m"), ("title", Json.str "T"),
          ("nodes", Json.arr [Json.obj [("id", Json.str "1"), ("label", Json.str "A")],
            Json.obj [("id", Json.str "2"), ("label", Json.str "B")],
            Json.obj [("id", Json.str "3"), ("label", Json.str "C")],
            Json.obj [("id", Json.str "4"), ("label", Json.str "D")]])])
        0 0 "z" { nodes := [], edges := [] }).1.nodes =
      ([] : List FlowNode) ++
        mindCenterNode (Json.obj [("id", Json.str "m"), ("title", Json.str "T"),
          ("nodes", Json.arr [Json.obj [("id", Json.str "1"), ("label", Json.str "A")],
            Json.obj [("id", Json.str "2"), ("label", Json.str "B")],
            Json.obj [("id", Json.str "3"), ("label", Json.str "C")],
            Json.obj [("id", Json.str "4"), ("label", Json.str "D")]])]) 0 0 ::
        (mindSats (Json.obj [("id", Json.str "m"), ("title", Json.str "T"),
          ("nodes", Json.arr [Json.obj [("id", Json.str "1"), ("label", Json.str "A")],
            Json.obj [("id", Json.str "2"), ("label", Json.str "B")],
            Json.obj [("id", Json.str "3"), ("label", Json.str "C")],
            Json.obj [("id", Json.str "4"), ("label", Json.str "D")]])]) 0 0
          [Json.obj [("id", Json.str "1"), ("label", Json.str "A")],
            Json.obj [("id", Json.str "2"), ("label", Json.str "B")],
            Json.obj [("id", Json.str "3"), ("label", Json.str "C")],
            Json.obj [("id", Json.str "4"), ("label", Json.str "D")]]).1 ∧
    (mindSats (Json.obj [("id", Json.str "m"), ("title", Json.str "T"),
        ("nodes", Json.arr [Json.obj [("id", Json.str "1"), ("label", Json.str "A")],
          Json.obj [("id", Json.str "2"), ("label", Json.str "B")],
          Json.obj [("id", Json.str "3"), ("label", Json.str "C")],
          Json.obj [("id", Json.str "4"), ("label", Json.str "D")]])]) 0 0
        [Json.obj [("id", Json.str "1"), ("label", Json.str "A")],
          Json.obj [("id", Json.str "2"), ("label", Json.str "B")],
          Json.obj [("id", Json.str "3"), ("label", Json.str "C")],
          Json.obj [("id", Json.str "4"), ("label", Json.str "D")]]).1.length =
      ([Json.obj [("id", Json.str "1"), ("label", Json.str "A")],
        Json.obj [("id", Json.str "2"), ("label", Json.str "B")],
        Json.obj [("id", Json.str "3"), ("label", Json.str "C")],
        Json.obj [("id", Json.str "4"), ("label", Json.str "D")]] : List Json).length :=
  ⟨(C7_mindmap_layout (fun _ => "")
      (Json.obj [("id", Json.str "m"), ("title", Json.str "T"),
        ("nodes", Json.arr [Json.obj [("id", Json.str "1"), ("label", Json.str "A")],
          Json.obj [("id", Json.str "2"), ("label", Json.str "B")],
          Json.obj [("id", Json.str "3"), ("label", Json.str "C")],
          Json.obj [("id", Json.str "4"), ("label", Json.str "D")]])])
      0 0 "z" { nodes := [], edges := [] }
      [Json.obj [("id", Json.str "1"), ("label", Json.str "A")],
        Json.obj [("id", Json.str "2"), ("label", Json.str "B")],
        Json.obj [("id", Json.str "3"), ("label", Json.str "C")],
        Json.obj [("id", Json.str "4"), ("label", Json.str "D")]]
      rfl (by decide) rfl).1,
   (C7_mindmap_layout (fun _ => "")
      (Json.obj [("id", Json.str "m"), ("title", Json.str "T"),
        ("nodes", Json.arr [Json.obj [("id", Json.str "1"), ("label", Json.str "A")],
          Json.obj [("id", Json.str "2"), ("label", Json.str "B")],
          Json.obj [("id", Json.str "3"), ("label", Json.str "C")],
          Json.obj [("id", Json.str "4"), ("label", Json.str "D")]])])
      0 0 "z" { nodes := [], edges := [] }
      [Json.obj [("id", Json.str "1"), ("label", Json.str "A")],
        Json.obj [("id", Json.str "2"), ("label", Json.str "B")],
        Json.obj [("id", Json.str "3"), ("label", Json.str "C")],
        Json.obj [("id", Json.str "4"), ("label", Json.str "D")]]
      rfl (by decide) rfl).2.2.1⟩

/-- C10.  For every single-element node command, the created element's
position on each axis is `args.x || defaultPos.x`: a coordinate equal to 0
is treated exactly like an omitted coordinate (the pseudo-random jittered
default around canvas center is used, by JavaScript truthiness), and only
nonzero supplied coordinates are honoured. -/
theorem C10_zero_coordinate (imgUrl : String → String) (s : String)
    (hs : s ∈ ["addComparison", "addNote", "addText", "addImage", "addList", "addWordArt",
      "addShape", "addCode"])
    (args : Json) (r1 r2 : Real) (er : String) (b : Board)
    (hid : jTruthy (jgetField args "id") = true) :
    (handleToolCall imgUrl (Json.str s) args r1 r2 er b).1.nodes =
      b.nodes ++
        [{ id := jsDisplay (jgetField args "id"), ntype := nodeTypeOf s,
           px := posOr (jgetField args "x") (defaultPosX r1),
           py := posOr (jgetField args "y") (defaultPosY r2),
           ndata := singleNodeData imgUrl s args }] ∧
    (∀ nd : FlowNode,
      (handleToolCall imgUrl (Json.str s) args r1 r2 er b).1.nodes.getLast? = some nd →
      ((jgetField args "x" = none ∨ jgetField args "x" = some (Json.num 0)) →
        nd.px = defaultPosX r1) ∧
      (∀ q : Rat, q ≠ 0 → jgetField args "x" = some (Json.num q) → nd.px = (q : Real)) ∧
      ((jgetField args "y" = none ∨ jgetField args "y" = some (Json.num 0)) →
        nd.py = defaultPosY r2) ∧
      (∀ q : Rat, q ≠ 0 → jgetField args "y" = some (Json.num q) → nd.py = (q : Real))) := by
  have happ : (handleToolCall imgUrl (Json.str s) args r1 r2 er b).1.nodes =
      b.nodes ++
        [{ id := jsDisplay (jgetField args "id"), ntype := nodeTypeOf s,
           px := posOr (jgetField args "x") (defaultPosX r1),
           py := posOr (jgetField args "y") (defaultPosY r2),
           ndata := singleNodeData imgUrl s args }] := by
    fin_cases hs <;> simp [handleToolCall, hid, nodeTypeOf, singleNodeData]
  refine ⟨happ, ?_⟩
  intro nd hnd
  rw [happ] at hnd
  simp at hnd
  subst hnd
  refine ⟨?_, ?_, ?_, ?_⟩
  · rintro (h | h) <;> simp [posOr, h]
  · intro q hq h
    simp [posOr, h, hq]
  · rintro (h | h) <;> simp [posOr, h]
  · intro q hq h
    simp [posOr, h, hq]

/-- Witness for C10: an addNote command with x = 0 lands at the jittered
default x. -/
theorem C10_zero_coordinate_witness :
    (handleToolCall (fun _ => "") (Json.str "addNote")
        (Json.obj [("id", Json.str "n"), ("x", Json.num 0)]) 0 0 "z"
        { nodes := [], edges := [] }).1.nodes =
      ([] : List FlowNode) ++
        [{ id := jsDisplay (jgetField (Json.obj [("id", Json.str "n"), ("x", Json.num 0)]) "id"),
           ntype := nodeTypeOf "addNote",
           px := posOr (jgetField (Json.obj [("id", Json.str "n"), ("x", Json.num 0)]) "x")
             (defaultPosX 0),
           py := posOr (jgetField (Json.obj [("id", Json.str "n"), ("x", Json.num 0)]) "y")
             (defaultPosY 0),
           ndata := singleNodeData (fun _ => "") "addNote"
             (Json.obj [("id", Json.str "n"), ("x", Json.num 0)]) }] ∧
    posOr (jgetField (Json.obj [("id", Json.str "n"), ("x", Json.num 0)]) "x") (defaultPosX 0) =
      defaultPosX 0 := by
  have h := C10_zero_coordinate (fun _ => "") "addNote" (by decide)
      (Json.obj [("id", Json.str "n"), ("x", Json.num 0)]) 0 0 "z"
      { nodes := [], edges := [] } rfl
  refine ⟨h.1, ?_⟩
  have hnd := h.2
      { id := jsDisplay (jgetField (Json.obj [("id", Json.str "n"), ("x", Json.num 0)]) "id"),
        ntype := nodeTypeOf "addNote",
        px := posOr (jgetField (Json.obj [("id", Json.str "n"), ("x", Json.num 0)]) "x")
          (defaultPosX 0),
        py := posOr (jgetField (Json.obj [("id", Json.str "n"), ("x", Json.num 0)]) "y")
          (defaultPosY 0),
        ndata := singleNodeData (fun _ => "") "addNote"
          (Json.obj [("id", Json.str "n"), ("x", Json.num 0)]) }
      (by rw [h.1]; rfl)
  exact (hnd.1 (Or.inr rfl))
